import Mathlib

/-!
# Verification of the `mob` broadcast relay

A shallow embedding of the `mob` relay server (files `src/connection.rs`,
`src/server.rs`, `src/main.rs`) and proofs about its framing, partial-I/O
continuation, fan-out and connection-table behaviour.

Modelling conventions:
* Bytes are `Nat`s; a `Vec<u8>` is a `List Nat`.
* A non-blocking socket is embedded as the script of results its future
  `read`/`write` system calls will return, together with the trace of bytes
  actually accepted by `write` so far.  An exhausted script behaves like a
  socket that would block.  One script entry corresponds to one system call.
* `io::Result` is `Except Unit`; the poll registration calls
  (`register`/`reregister`/`deregister`) are external collaborators and are
  modelled as always succeeding, so registration only updates the interest
  set.
* `Rc<Vec<u8>>`/`ByteBuf` values are plain byte lists in the main model; a
  second model (`Rc` namespace, below) makes buffer identities explicit in
  order to reason about sharing versus copying during fan-out.
-/

/-- Result of one non-blocking `read` system call: the bytes delivered,
`EWOULDBLOCK`, or a fatal I/O error. -/
inductive ReadRes where
  | data : List Nat → ReadRes
  | wouldBlock : ReadRes
  | ioErr : ReadRes
deriving DecidableEq, Repr

/-- Result of one non-blocking `write` system call: the number of bytes the
kernel accepted, `EWOULDBLOCK`, or a fatal I/O error. -/
inductive WriteRes where
  | wrote : Nat → WriteRes
  | wouldBlock : WriteRes
  | ioErr : WriteRes
deriving DecidableEq, Repr

/-- A non-blocking stream socket, embedded as the scripts of its future
`read` and `write` system-call results plus the trace of bytes actually
transmitted so far. -/
structure Sock where
  reads : List ReadRes
  writes : List WriteRes
  sent : List Nat
deriving DecidableEq, Repr

deriving instance DecidableEq for Except

/-- One `read` call into a buffer of `cap` bytes.  The kernel never delivers
more than the buffer holds, so delivered data is truncated at `cap`.  An
exhausted script would block. -/
def Sock.read (s : Sock) (cap : Nat) : ReadRes × Sock :=
  match s.reads with
  | [] => (.wouldBlock, s)
  | .data bs :: rs => (.data (bs.take cap), { s with reads := rs })
  | .wouldBlock :: rs => (.wouldBlock, { s with reads := rs })
  | .ioErr :: rs => (.ioErr, { s with reads := rs })

/-- One `write` call offering the bytes `bs`.  The kernel accepts at most
`bs.length` bytes; accepted bytes are appended to the transmission trace. -/
def Sock.write (s : Sock) (bs : List Nat) : WriteRes × Sock :=
  match s.writes with
  | [] => (.wouldBlock, s)
  | .wrote n :: ws =>
      (.wrote (min n bs.length),
        { s with writes := ws, sent := s.sent ++ bs.take (min n bs.length) })
  | .wouldBlock :: ws => (.wouldBlock, { s with writes := ws })
  | .ioErr :: ws => (.ioErr, { s with writes := ws })

/-- Embeds `mio::Ready` restricted to the bits this program uses: readable,
writable, and hangup detection (`UnixReady::hup`). -/
structure Ready where
  rd : Bool
  wr : Bool
  hup : Bool
deriving DecidableEq, Repr

/-- Embeds `byteorder::BigEndian::read_u64`: big-endian value of a byte list. -/
def beRead (bs : List Nat) : Nat :=
  bs.foldl (fun a b => a * 256 + b) 0

/-- Embeds `byteorder::BigEndian::write_u64`: the 8 big-endian bytes of `n`. -/
def beWrite8 (n : Nat) : List Nat :=
  [n / 256 ^ 7 % 256, n / 256 ^ 6 % 256, n / 256 ^ 5 % 256, n / 256 ^ 4 % 256,
   n / 256 ^ 3 % 256, n / 256 ^ 2 % 256, n / 256 % 256, n % 256]

/-- The wire encoding of a payload (`src/connection.rs`
`write_message_length` + `write_message`): an 8-byte big-endian length
header followed by the payload bytes. -/
def encode (payload : List Nat) : List Nat :=
  beWrite8 payload.length ++ payload

/-- Embeds `Connection` from `src/connection.rs` (lines 16–36): per-socket state of
an accepted client.  The `reset` field is the Draining flag: modelled from
the spec (§3, §4.2), since `server.rs` calls `mark_reset`/`is_reset` on
`Connection` but the method bodies are not under `src/` — "per-connection
marker meaning remove at end of tick; once set, further readiness events for
that connection are ignored". -/
structure Connection where
  sock : Sock
  token : Nat
  interest : Ready
  send_queue : List (List Nat)
  read_continuation : Option Nat
  write_continuation : Bool
  reset : Bool
deriving DecidableEq, Repr

instance : Inhabited Connection :=
  ⟨⟨⟨[], [], []⟩, 0, ⟨false, false, true⟩, [], none, false, false⟩⟩

namespace Connection

/-- Embeds `Connection::new` (`connection.rs` lines 39–48): initial interest is
hangup-only. -/
def new (sock : Sock) (token : Nat) : Connection :=
  { sock := sock
    token := token
    interest := ⟨false, false, true⟩   -- Ready::from(UnixReady::hup())
    send_queue := []
    read_continuation := none
    write_continuation := false
    reset := false }

/-- Modelled from the spec (§3 Draining flag): `mark_reset`, called by
`server.rs` but not defined under `src/`. -/
def mark_reset (c : Connection) : Connection :=
  { c with reset := true }

/-- Modelled from the spec (§3 Draining flag): `is_reset`, called by
`server.rs` but not defined under `src/`. -/
def is_reset (c : Connection) : Bool :=
  c.reset

/-- Embeds `Connection::read_message_length` (`connection.rs` lines 112–137).
A stored read continuation is returned as-is without touching the socket;
otherwise one 8-byte header read is attempted: would-block is a retry
signal (`Ok(None)`), any delivery of fewer than 8 bytes is
`ErrorKind::InvalidData`. -/
def read_message_length (c : Connection) : Except Unit (Option Nat) × Connection :=
  match c.read_continuation with
  | some n => (.ok (some n), c)
  | none =>
    match c.sock.read 8 with
    | (.data bs, s) =>
        if bs.length < 8 then (.error (), { c with sock := s })
        else (.ok (some (beRead bs)), { c with sock := s })
    | (.wouldBlock, s) => (.ok none, { c with sock := s })
    | (.ioErr, s) => (.error (), { c with sock := s })

/-- Embeds `Connection::readable` (`connection.rs` lines 56–110).  Reads the
length header (or resumes a continuation), drops zero-length frames, then
attempts one read of exactly `msg_len` body bytes: a complete read clears
the continuation and yields the frame; a delivery of fewer bytes than
`msg_len` is `ErrorKind::InvalidData` (the `TODO handle a read continuation
here` path); would-block stores `msg_len` as the continuation. -/
def readable (c : Connection) : Except Unit (Option (List Nat)) × Connection :=
  match read_message_length c with
  | (.error e, c₁) => (.error e, c₁)
  | (.ok none, c₁) => (.ok none, c₁)
  | (.ok (some msgLen), c₁) =>
    if msgLen = 0 then (.ok none, c₁)
    else
      match c₁.sock.read msgLen with
      | (.data bs, s) =>
          if bs.length < msgLen then (.error (), { c₁ with sock := s })
          else (.ok (some bs), { c₁ with sock := s, read_continuation := none })
      | (.wouldBlock, s) =>
          (.ok none, { c₁ with sock := s, read_continuation := some msgLen })
      | (.ioErr, s) => (.error (), { c₁ with sock := s })

/-- Embeds `Connection::write_message_length` (`connection.rs` lines 160–192).
With a pending write continuation the header is already on the wire and is
skipped.  Otherwise the 8 header bytes are written: a short write (fewer
than 8 bytes accepted) is a fatal error, would-block reports `Ok(None)`. -/
def write_message_length (c : Connection) (buf : List Nat) :
    Except Unit (Option Unit) × Connection :=
  if c.write_continuation then (.ok (some ()), c)
  else
    match c.sock.write (beWrite8 buf.length) with
    | (.wrote n, s) =>
        if n < 8 then (.error (), { c with sock := s })
        else (.ok (some ()), { c with sock := s })
    | (.wouldBlock, s) => (.ok none, { c with sock := s })
    | (.ioErr, s) => (.error (), { c with sock := s })

/-- Embeds `Connection::write_message` (`connection.rs` lines 194–239).  Header
would-block re-queues the whole frame at the head.  After the header, the
payload is written: a partial write re-queues `buf[n..]` at the head and
sets the continuation; payload would-block re-queues the whole buffer and
sets the continuation; a complete write clears the continuation. -/
def write_message (c : Connection) (buf : List Nat) : Except Unit Unit × Connection :=
  match write_message_length c buf with
  | (.ok none, c₁) =>
      (.ok (), { c₁ with send_queue := buf :: c₁.send_queue })
  | (.error e, c₁) => (.error e, c₁)
  | (.ok (some _), c₁) =>
    match c₁.sock.write buf with
    | (.wrote n, s) =>
        if n < buf.length then
          (.ok (), { c₁ with sock := s, send_queue := buf.drop n :: c₁.send_queue, write_continuation := true })
        else
          (.ok (), { c₁ with sock := s, write_continuation := false })
    | (.wouldBlock, s) =>
        (.ok (), { c₁ with sock := s, send_queue := buf :: c₁.send_queue, write_continuation := true })
    | (.ioErr, s) => (.error (), { c₁ with sock := s })

/-- Embeds `Connection::writable` (`connection.rs` lines 145–158).  Pops the head
of the send queue (an empty queue is an error: "Could not pop send queue"),
sends it via `write_message`, and removes writable interest iff the queue
ended up empty. -/
def writable (c : Connection) : Except Unit Unit × Connection :=
  match c.send_queue with
  | [] => (.error (), c)
  | buf :: rest =>
    match write_message ({ c with send_queue := rest }) buf with
    | (.error e, c₁) => (.error e, c₁)
    | (.ok (), c₁) =>
        if c₁.send_queue.isEmpty then
          (.ok (), { c₁ with interest := { c₁.interest with wr := false } })
        else (.ok (), c₁)

/-- Embeds `Connection::send_message` (`connection.rs` lines 246–263).  An empty
queue triggers an immediate write attempt; otherwise the message is pushed
at the tail.  Writable interest is inserted if anything remains queued. -/
def send_message (c : Connection) (message : List Nat) : Except Unit Unit × Connection :=
  let (r, c₁) :=
    if c.send_queue.isEmpty then write_message c message
    else (.ok (), { c with send_queue := c.send_queue ++ [message] })
  match r with
  | .error e => (.error e, c₁)
  | .ok () =>
      if !c₁.send_queue.isEmpty && !c₁.interest.wr then
        (.ok (), { c₁ with interest := { c₁.interest with wr := true } })
      else (.ok (), c₁)

/-- Embeds `Connection::register` (`connection.rs` lines 268–282): inserts
readable interest and registers with the poller (modelled as always
succeeding). -/
def register (c : Connection) : Connection :=
  { c with interest := { c.interest with rd := true } }

/-- Embeds `Connection::reregister` (`connection.rs` lines 285–297): re-expresses
the current interest set to the poller (modelled as always succeeding; no
state change). -/
def reregister (c : Connection) : Connection :=
  c

end Connection

/-- Embeds `Server` from `src/server.rs` (lines 10–22): the listener token, the
slab of accepted connections (an association list token ↦ connection), the
tokens flagged for removal at end of tick, and whether the event loop has
been shut down.  Per `Server::new`, `token = 1` and the slab allocates
tokens starting at 2 with capacity 128. -/
structure Server where
  token : Nat
  conns : List (Nat × Connection)
  reset_tokens : List Nat
  shutdown : Bool
deriving DecidableEq, Repr

namespace Server

/-- Capacity of the connection slab (`Slab::new_starting_at(Token(2), 128)`). -/
def slabCapacity : Nat := 128

/-- First token handed out by the slab (`Token(2)`). -/
def slabStart : Nat := 2

/-- Embeds `Slab::insert_with`: allocate a free slot in `[slabStart,
slabStart + slabCapacity)` and store `mk token` there; a full slab returns
no token and leaves the slab unchanged. -/
def slabInsert (conns : List (Nat × Connection)) (mk : Nat → Connection) :
    Option Nat × List (Nat × Connection) :=
  match ((List.range slabCapacity).map (· + slabStart)).find?
      (fun t => !conns.any (·.1 == t)) with
  | none => (none, conns)
  | some t => (some t, conns ++ [(t, mk t)])

/-- Embeds `Server::find_connection_by_token` (`server.rs` lines 252–254): look a
connection up by token (the call sites guarantee liveness; a stale token
yields the default connection in the model). -/
def getConn (s : Server) (t : Nat) : Connection :=
  ((s.conns.find? (·.1 == t)).map Prod.snd).getD default

/-- Replace the connection stored at token `t` (the in-place mutation that
`find_connection_by_token(..)` followed by a method call performs). -/
def updateConn (s : Server) (t : Nat) (c : Connection) : Server :=
  { s with conns := s.conns.map (fun p => if p.1 == t then (p.1, c) else p) }

/-- Embeds `Server::reset_connection` (`server.rs` lines 241–249): the listener
token shuts the event loop down; any other token is marked reset (Draining)
and queued for removal at end of tick. -/
def resetConnection (s : Server) (t : Nat) : Server :=
  if s.token = t then { s with shutdown := true }
  else
    { s with
      conns := s.conns.map (fun p => if p.1 == t then (p.1, p.2.mark_reset) else p)
      reset_tokens := s.reset_tokens ++ [t] }

/-- The fan-out loop body of `Server::readable` (`server.rs` lines
216–230): every connection in the slab is offered the message via
`send_message` (each gets its own `ByteBuf::from_slice` copy, a plain byte
list here) followed by `reregister`; connections whose enqueue fails are
collected as bad tokens instead of being removed mid-iteration.  Returns
the updated slab and the bad tokens. -/
def fanoutLoop (m : List Nat) : List (Nat × Connection) →
    List (Nat × Connection) × List Nat
  | [] => ([], [])
  | (t, c) :: rest =>
    let (r, c₁) := Connection.send_message c m
    let (rest', bad) := fanoutLoop m rest
    match r with
    | .ok () => ((t, c₁.reregister) :: rest', bad)
    | .error () => ((t, c₁) :: rest', t :: bad)

/-- One fan-out of a complete message (`server.rs` lines 214–234): run the
loop over the slab, then `reset_connection` each bad token. -/
def fanout (s : Server) (m : List Nat) : Server :=
  let (conns', bad) := fanoutLoop m s.conns
  bad.foldl (fun srv t => srv.resetConnection t) { s with conns := conns' }

/-- Fuel-bounded unfolding of the `while let Some(message) =
conn.readable()` loop of `Server::readable` (`server.rs` lines 211–235):
each complete frame is fanned out to the whole slab; the loop stops when
`readable` yields no frame and propagates the first error.  The returned
list records the messages broadcast during the dispatch. -/
def readableLoopF : Nat → Server → Nat → Except Unit (List (List Nat)) × Server
  | 0, s, _ => (.ok [], s)
  | fuel + 1, s, t =>
    match Connection.readable (s.getConn t) with
    | (.error e, c₁) => (.error e, s.updateConn t c₁)
    | (.ok none, c₁) => (.ok [], s.updateConn t c₁)
    | (.ok (some m), c₁) =>
      match readableLoopF fuel ((s.updateConn t c₁).fanout m) t with
      | (.error e, s₂) => (.error e, s₂)
      | (.ok ms, s₂) => (.ok (m :: ms), s₂)

/-- Embeds `Server::readable` (`server.rs` lines 208–238).  Each loop iteration
that produces a frame consumes at least one pending read result of the
dispatched connection's socket (and fan-out never touches any read side),
so `reads.length + 1` rounds of fuel always reach the loop's own exit
condition. -/
def readable (s : Server) (t : Nat) : Except Unit (List (List Nat)) × Server :=
  readableLoopF ((s.getConn t).sock.reads.length + 1) s t

/-- The readable branch of `Handler::ready` for a connection token
(`server.rs` lines 80–99): skip connections already reset; on error,
deregister (a poller-side effect) and `reset_connection`; on success the
connection has reregistered inside the loop. -/
def readyReadable (s : Server) (t : Nat) : Server :=
  if s.getConn t |>.is_reset then s
  else
    match s.readable t with
    | (.ok _, s₁) => s₁
    | (.error _, s₁) => s₁.resetConnection t

/-- The writable branch of `Handler::ready` (`server.rs` lines 59–76):
skip connections already reset; dispatch `Connection::writable` followed by
`reregister`, and `reset_connection` on failure. -/
def readyWritable (s : Server) (t : Nat) : Server :=
  if s.getConn t |>.is_reset then s
  else
    match Connection.writable (s.getConn t) with
    | (.ok (), c₁) => s.updateConn t c₁.reregister
    | (.error (), c₁) => (s.updateConn t c₁).resetConnection t

/-- Embeds `Server::accept` (`server.rs` lines 157–201) for the case in which the
listener yields a socket: insert it into the slab (a new `Connection`
registered for reads) and reregister the listener; a full slab is logged
and skipped without touching existing connections.  Poller registration is
modelled as always succeeding, so the register-failure removal branch is
not reachable. -/
def accept (s : Server) (sock : Sock) : Server :=
  match slabInsert s.conns (fun token => Connection.new sock token) with
  | (some t, conns') =>
      { s with conns := conns'.map (fun p => if p.1 == t then (p.1, p.2.register) else p) }
  | (none, conns') => { s with conns := conns' }

/-- Embeds `Handler::tick` (`server.rs` lines 28–39): remove every connection
whose token was queued in `reset_tokens` (the `contains` guard of the
source makes removal of an absent token a no-op, which a filter reproduces),
then clear `reset_tokens`. -/
def tick (s : Server) : Server :=
  { s with
    conns := s.reset_tokens.foldl (fun cs t => cs.filter (fun p => !(p.1 == t))) s.conns
    reset_tokens := [] }

end Server

/-- Embeds `Connection` from `src/main.rs` (lines 18–51): the legacy reactor's
per-socket state (no framing, no continuations, no Draining flag). -/
structure MainConnection where
  sock : Sock
  token : Nat
  interest : Ready
  send_queue : List (List Nat)
deriving DecidableEq, Repr

/-- Embeds `Connection::new` from `src/main.rs` (lines 38–51): hangup-only
interest, empty queue. -/
def MainConnection.new (sock : Sock) (token : Nat) : MainConnection :=
  { sock := sock, token := token, interest := ⟨false, false, true⟩, send_queue := [] }

/-- Embeds `Connection::register` from `src/main.rs` (lines 181–190): inserts
readable interest (poller registration modelled as succeeding). -/
def MainConnection.register (c : MainConnection) : MainConnection :=
  { c with interest := { c.interest with rd := true } }

/-- Embeds `Server` from `src/main.rs` (lines 197–207): the legacy reactor; same
listener token 1 and slab of capacity 128 starting at token 2. -/
structure MainServer where
  token : Nat
  conns : List (Nat × MainConnection)
deriving DecidableEq, Repr

/-- Embeds `Slab::insert_with` for the legacy slab, identical allocation policy. -/
def MainServer.slabInsert (conns : List (Nat × MainConnection))
    (mk : Nat → MainConnection) : Option Nat × List (Nat × MainConnection) :=
  match ((List.range Server.slabCapacity).map (· + Server.slabStart)).find?
      (fun t => !conns.any (·.1 == t)) with
  | none => (none, conns)
  | some t => (some t, conns ++ [(t, mk t)])

/-- Embeds `Server::accept` from `src/main.rs` (lines 239–277) for an accepted
socket: `self.conns.insert_with(..).unwrap()` — when the slab is full,
`insert_with` returns `None` and the `unwrap` panics, crashing the
process; the panic is the `.error` result. -/
def MainServer.accept (s : MainServer) (sock : Sock) : Except Unit MainServer :=
  match MainServer.slabInsert s.conns
      (fun token => (MainConnection.new sock token).register) with
  | (some _, conns') => .ok { s with conns := conns' }
  | (none, _) => .error ()

/-!
## Buffer-identity model of the fan-out

`server.rs` stores `Rc<Vec<u8>>`/`ByteBuf` handles in the send queues.  To
reason about whether fan-out shares one underlying buffer or copies it per
connection, this second model makes allocation explicit: a heap of
allocated buffers, and queues of buffer handles (heap indices).  Apart from
the handle indirection the definitions mirror the `Connection` ones above
line by line.
-/

namespace Rc

/-- The set of allocated byte buffers; a handle is an index, allocation
appends. -/
structure Heap where
  bufs : List (List Nat)
deriving DecidableEq, Repr

/-- Allocate a new buffer (`Rc::new` / `ByteBuf::from_slice`): returns the
fresh handle. -/
def Heap.alloc (h : Heap) (bs : List Nat) : Nat × Heap :=
  (h.bufs.length, ⟨h.bufs ++ [bs]⟩)

/-- Dereference a handle. -/
def Heap.get (h : Heap) (i : Nat) : List Nat :=
  h.bufs.getD i []

/-- A connection's write-side state with buffer handles in place of byte
lists. -/
structure Conn where
  sock : Sock
  token : Nat
  interest : Ready
  send_queue : List Nat
  write_continuation : Bool
deriving DecidableEq, Repr

/-- Embeds `Connection::write_message_length` over handles. -/
def write_message_length (h : Heap) (c : Conn) (buf : Nat) :
    Except Unit (Option Unit) × Conn :=
  if c.write_continuation then (.ok (some ()), c)
  else
    match c.sock.write (beWrite8 (h.get buf).length) with
    | (.wrote n, s) =>
        if n < 8 then (.error (), { c with sock := s })
        else (.ok (some ()), { c with sock := s })
    | (.wouldBlock, s) => (.ok none, { c with sock := s })
    | (.ioErr, s) => (.error (), { c with sock := s })

/-- Embeds `Connection::write_message` over handles: the partial-write remainder
`Rc::new(buf[n..].to_vec())` is a fresh allocation. -/
def write_message (h : Heap) (c : Conn) (buf : Nat) :
    Except Unit Unit × Conn × Heap :=
  match write_message_length h c buf with
  | (.ok none, c₁) => (.ok (), { c₁ with send_queue := buf :: c₁.send_queue }, h)
  | (.error e, c₁) => (.error e, c₁, h)
  | (.ok (some _), c₁) =>
    let bs := h.get buf
    match c₁.sock.write bs with
    | (.wrote n, s) =>
        if n < bs.length then
          let (rid, h₁) := h.alloc (bs.drop n)
          (.ok (), { c₁ with sock := s, send_queue := rid :: c₁.send_queue, write_continuation := true }, h₁)
        else (.ok (), { c₁ with sock := s, write_continuation := false }, h)
    | (.wouldBlock, s) =>
        (.ok (), { c₁ with sock := s, send_queue := buf :: c₁.send_queue, write_continuation := true }, h)
    | (.ioErr, s) => (.error (), { c₁ with sock := s }, h)

/-- Embeds `Connection::send_message` over handles. -/
def send_message (h : Heap) (c : Conn) (message : Nat) :
    Except Unit Unit × Conn × Heap :=
  let (r, c₁, h₁) :=
    if c.send_queue.isEmpty then write_message h c message
    else (.ok (), { c with send_queue := c.send_queue ++ [message] }, h)
  match r with
  | .error e => (.error e, c₁, h₁)
  | .ok () =>
      if !c₁.send_queue.isEmpty && !c₁.interest.wr then
        (.ok (), { c₁ with interest := { c₁.interest with wr := true } }, h₁)
      else (.ok (), c₁, h₁)

/-- The fan-out loop of `Server::readable` (`server.rs` lines 219–230) with
explicit allocation: for each connection in the slab, `ByteBuf::from_slice
(message.bytes())` allocates a fresh per-connection buffer which is then
queued via `send_message`. -/
def fanoutLoop (m : List Nat) (h : Heap) : List Conn → Heap × List Conn × List Nat
  | [] => (h, [], [])
  | c :: rest =>
    let (id, h₁) := h.alloc m
    let (r, c₁, h₂) := send_message h₁ c id
    let (h₃, rest', bad) := fanoutLoop m h₂ rest
    match r with
    | .ok () => (h₃, c₁ :: rest', bad)
    | .error () => (h₃, c₁ :: rest', c₁.token :: bad)

end Rc

section SanityServer

example :
    (Server.readable
      ⟨1, [(2, { (default : Connection) with
                 sock := ⟨[.data (beWrite8 1), .data [42]], [.wouldBlock], []⟩ })],
       [], false⟩ 2).1 = .ok [[42]] := by decide

end SanityServer

/-- Wire script delivering a sequence of complete frames: for each frame,
one read result carrying its 8-byte header and one carrying its body. -/
def mkScript (frames : List (List Nat)) : List ReadRes :=
  frames.flatMap (fun f => [.data (beWrite8 f.length), .data f])

/-!
## Helper lemmas
-/

theorem beWrite8_length (n : Nat) : (beWrite8 n).length = 8 := rfl

theorem beWrite8_take8 (n : Nat) : (beWrite8 n).take 8 = beWrite8 n := rfl

theorem beRead_beWrite8 (n : Nat) (h : n < 2 ^ 64) : beRead (beWrite8 n) = n := by
  simp only [beRead, beWrite8, List.foldl]
  norm_num
  omega

theorem encode_take8 (p : List Nat) : (encode p).take 8 = beWrite8 p.length := by
  show (beWrite8 p.length ++ p).take 8 = beWrite8 p.length
  exact List.take_left' (beWrite8_length p.length)

theorem encode_drop8 (p : List Nat) : (encode p).drop 8 = p := by
  show (beWrite8 p.length ++ p).drop 8 = p
  exact List.drop_left' (beWrite8_length p.length)

theorem Sock.write_reads (s : Sock) (bs : List Nat) :
    ((s.write bs).2).reads = s.reads := by
  obtain ⟨rds, ws, snt⟩ := s
  cases ws with
  | nil => rfl
  | cons w ws => cases w <;> rfl

theorem Connection.write_message_length_fields (c : Connection) (buf : List Nat) :
    ((Connection.write_message_length c buf).2).interest = c.interest ∧
    ((Connection.write_message_length c buf).2).token = c.token ∧
    ((Connection.write_message_length c buf).2).read_continuation = c.read_continuation ∧
    ((Connection.write_message_length c buf).2).reset = c.reset ∧
    ((Connection.write_message_length c buf).2).sock.reads = c.sock.reads ∧
    ((Connection.write_message_length c buf).2).send_queue = c.send_queue ∧
    ((Connection.write_message_length c buf).2).write_continuation = c.write_continuation := by
  unfold Connection.write_message_length
  split
  · simp
  · split
    case h_1 n s heq =>
      have hr := Sock.write_reads c.sock (beWrite8 buf.length)
      rw [heq] at hr
      split <;> simp_all
    case h_2 s heq =>
      have hr := Sock.write_reads c.sock (beWrite8 buf.length)
      rw [heq] at hr
      simp_all
    case h_3 s heq =>
      have hr := Sock.write_reads c.sock (beWrite8 buf.length)
      rw [heq] at hr
      simp_all

theorem Connection.write_message_fields (c : Connection) (buf : List Nat) :
    ((Connection.write_message c buf).2).interest = c.interest ∧
    ((Connection.write_message c buf).2).token = c.token ∧
    ((Connection.write_message c buf).2).read_continuation = c.read_continuation ∧
    ((Connection.write_message c buf).2).reset = c.reset ∧
    ((Connection.write_message c buf).2).sock.reads = c.sock.reads := by
  have h := Connection.write_message_length_fields c buf
  unfold Connection.write_message
  cases hwml : Connection.write_message_length c buf with
  | mk r c₁ =>
    rw [hwml] at h
    obtain ⟨hi, ht, hrc, hrs, hrd, hq, hwc⟩ := h
    match r with
    | .ok none => simp_all
    | .error e => simp_all
    | .ok (some _) =>
      simp only
      split
      case h_1 n s heq =>
        have hr := Sock.write_reads c₁.sock buf
        rw [heq] at hr
        split <;> simp_all
      case h_2 s heq =>
        have hr := Sock.write_reads c₁.sock buf
        rw [heq] at hr
        simp_all
      case h_3 s heq =>
        have hr := Sock.write_reads c₁.sock buf
        rw [heq] at hr
        simp_all

theorem Connection.send_message_fields (c : Connection) (m : List Nat) :
    ((Connection.send_message c m).2).interest.hup = c.interest.hup ∧
    ((Connection.send_message c m).2).interest.rd = c.interest.rd ∧
    ((Connection.send_message c m).2).token = c.token ∧
    ((Connection.send_message c m).2).read_continuation = c.read_continuation ∧
    ((Connection.send_message c m).2).reset = c.reset ∧
    ((Connection.send_message c m).2).sock.reads = c.sock.reads := by
  unfold Connection.send_message
  by_cases hq : c.send_queue.isEmpty
  · cases hw : Connection.write_message c m with
    | mk r c₁ =>
      have h := Connection.write_message_fields c m
      rw [hw] at h
      cases r <;> simp only [hq, hw, if_true, reduceIte] <;>
        (repeat' split) <;> simp_all
  · simp only [hq, if_false, Bool.false_eq_true, reduceIte]
    (repeat' split) <;> simp_all

theorem Sock.read_writes (s : Sock) (cap : Nat) :
    ((s.read cap).2).writes = s.writes ∧ ((s.read cap).2).sent = s.sent := by
  obtain ⟨rds, ws, snt⟩ := s
  cases rds with
  | nil => exact ⟨rfl, rfl⟩
  | cons r rs => cases r <;> exact ⟨rfl, rfl⟩

theorem Connection.read_message_length_fields (c : Connection) :
    ((Connection.read_message_length c).2).interest = c.interest ∧
    ((Connection.read_message_length c).2).token = c.token ∧
    ((Connection.read_message_length c).2).reset = c.reset ∧
    ((Connection.read_message_length c).2).send_queue = c.send_queue ∧
    ((Connection.read_message_length c).2).write_continuation = c.write_continuation ∧
    ((Connection.read_message_length c).2).sock.writes = c.sock.writes ∧
    ((Connection.read_message_length c).2).sock.sent = c.sock.sent := by
  unfold Connection.read_message_length
  split
  · simp
  · split
    case h_1 bs s heq =>
      have hr := Sock.read_writes c.sock 8
      rw [heq] at hr
      split <;> simp_all
    case h_2 s heq =>
      have hr := Sock.read_writes c.sock 8
      rw [heq] at hr
      simp_all
    case h_3 s heq =>
      have hr := Sock.read_writes c.sock 8
      rw [heq] at hr
      simp_all

theorem Connection.readable_fields (c : Connection) :
    ((Connection.readable c).2).interest = c.interest ∧
    ((Connection.readable c).2).token = c.token ∧
    ((Connection.readable c).2).reset = c.reset ∧
    ((Connection.readable c).2).send_queue = c.send_queue ∧
    ((Connection.readable c).2).write_continuation = c.write_continuation ∧
    ((Connection.readable c).2).sock.writes = c.sock.writes ∧
    ((Connection.readable c).2).sock.sent = c.sock.sent := by
  have h := Connection.read_message_length_fields c
  unfold Connection.readable
  cases hrml : Connection.read_message_length c with
  | mk r c₁ =>
    rw [hrml] at h
    obtain ⟨hi, ht, hrs, hq, hwc, hw, hsn⟩ := h
    match r with
    | .error e => simp_all
    | .ok none => simp_all
    | .ok (some msgLen) =>
      simp only
      split
      · simp_all
      · split
        case h_1 bs s heq =>
          have hr := Sock.read_writes c₁.sock msgLen
          rw [heq] at hr
          split <;> simp_all
        case h_2 s heq =>
          have hr := Sock.read_writes c₁.sock msgLen
          rw [heq] at hr
          simp_all
        case h_3 s heq =>
          have hr := Sock.read_writes c₁.sock msgLen
          rw [heq] at hr
          simp_all

theorem Connection.writable_fields (c : Connection) :
    ((Connection.writable c).2).interest.hup = c.interest.hup ∧
    ((Connection.writable c).2).interest.rd = c.interest.rd ∧
    ((Connection.writable c).2).token = c.token ∧
    ((Connection.writable c).2).read_continuation = c.read_continuation ∧
    ((Connection.writable c).2).reset = c.reset ∧
    ((Connection.writable c).2).sock.reads = c.sock.reads := by
  unfold Connection.writable
  split
  · simp
  case h_2 buf rest heq =>
    split
    case h_1 e c₁ hw =>
      have h := Connection.write_message_fields ({ c with send_queue := rest }) buf
      rw [hw] at h
      simp_all
    case h_2 c₁ hw =>
      have h := Connection.write_message_fields ({ c with send_queue := rest }) buf
      rw [hw] at h
      split <;> simp_all

/-- Claim C7 helper: a readable dispatch on a socket whose next two read
results deliver a full 8-byte header and the full declared body yields
exactly that frame and clears the continuation. -/
theorem Connection.readable_frame (c : Connection) (f : List Nat) (rest : List ReadRes)
    (hrc : c.read_continuation = none)
    (hreads : c.sock.reads = .data (beWrite8 f.length) :: .data f :: rest)
    (hne : f ≠ []) (hlt : f.length < 2 ^ 64) :
    Connection.readable c =
      (.ok (some f),
        { c with sock := { c.sock with reads := rest }, read_continuation := none }) := by
  obtain ⟨⟨rds, ws, snt⟩, tok, intr, q, rc, wc, rst⟩ := c
  simp only at hrc hreads
  subst hrc
  subst hreads
  unfold Connection.readable Connection.read_message_length Sock.read
  simp [beWrite8_take8, beWrite8_length, beRead_beWrite8 f.length hlt,
        List.length_eq_zero, hne, List.take_length]

section Sanity

example :
    (Connection.readable
      { (default : Connection) with
        sock := ⟨[.data (beWrite8 3), .data [7, 8, 9]], [], []⟩ }).1 =
      .ok (some [7, 8, 9]) := by decide

example :
    (Connection.readable
      { (default : Connection) with
        sock := ⟨[.data (beWrite8 5), .data [1, 2, 3]], [], []⟩ }).1 =
      .error () := by decide

end Sanity

/-!
## Claim theorems
-/

/-- Claim C1 (code bug): with a declared frame length of 5, a readable
dispatch on which the socket delivers only 3 payload bytes returns an
error (`ErrorKind::InvalidData`, "Did not read enough bytes"), tearing the
connection down and abandoning the partial buffer, instead of returning no
frame and storing a `{length, bytes_filled_so_far}` continuation that a
later dispatch resumes (the source marks the gap itself: `TODO handle a
read continuation here`).  Second conjunct: only when the body read
delivers nothing (would-block) is a continuation stored, and it records
the expected length alone — no fill progress, and the next dispatch starts
a fresh buffer. -/
theorem C1_partial_body_read_fatal :
    Connection.readable
        ⟨⟨[.data (beWrite8 5), .data [1, 2, 3]], [], []⟩, 2, ⟨true, false, true⟩, [], none, false, false⟩
      = (.error (), ⟨⟨[], [], []⟩, 2, ⟨true, false, true⟩, [], none, false, false⟩)
    ∧ Connection.readable
        ⟨⟨[.data (beWrite8 5), .wouldBlock], [], []⟩, 2, ⟨true, false, true⟩, [], none, false, false⟩
      = (.ok none, ⟨⟨[], [], []⟩, 2, ⟨true, false, true⟩, [], some 5, false, false⟩) := by
  decide

/-- Claim C9: every connection's interest set contains hangup-detection
from construction onward — `Connection::new` starts from
`Ready::from(UnixReady::hup())`, and none of `readable`, `writable`,
`send_message`, `register` or `reregister` ever clears the hup bit. -/
theorem C9_interest_always_hup :
    (∀ (sock : Sock) (token : Nat), (Connection.new sock token).interest.hup = true)
    ∧ (∀ c : Connection, ((Connection.readable c).2).interest.hup = c.interest.hup)
    ∧ (∀ c : Connection, ((Connection.writable c).2).interest.hup = c.interest.hup)
    ∧ (∀ (c : Connection) (m : List Nat),
        ((Connection.send_message c m).2).interest.hup = c.interest.hup)
    ∧ (∀ c : Connection, (Connection.register c).interest.hup = c.interest.hup)
    ∧ (∀ c : Connection, (Connection.reregister c).interest.hup = c.interest.hup) := by
  refine ⟨fun _ _ => rfl, fun c => ?_, fun c => (Connection.writable_fields c).1,
    fun c m => (Connection.send_message_fields c m).1, fun _ => rfl, fun _ => rfl⟩
  rw [(Connection.readable_fields c).1]

/-- Claim C7: round-trip.  A connection whose socket delivers the encoding
of a payload (the 8-byte big-endian length header, then the payload bytes)
reproduces exactly the original payload from `readable`; a zero-length
payload is legal on the wire but yields no frame (`Ok(None)`), so nothing
is handed to the broadcaster and no client — the sender included — sees a
broadcast for it. -/
theorem C7_roundtrip_decode_encode (payload : List Nat) (c : Connection)
    (hlt : payload.length < 2 ^ 64) (hrc : c.read_continuation = none)
    (hreads : c.sock.reads =
      [.data ((encode payload).take 8), .data ((encode payload).drop 8)]) :
    (payload ≠ [] →
      Connection.readable c =
        (.ok (some payload),
          { c with sock := { c.sock with reads := [] }, read_continuation := none }))
    ∧ (payload = [] →
      Connection.readable c =
        (.ok none, { c with sock := { c.sock with reads := [.data []] } })) := by
  rw [encode_take8, encode_drop8] at hreads
  constructor
  · intro hne
    exact Connection.readable_frame c payload [] hrc hreads hne hlt
  · intro hnil
    subst hnil
    obtain ⟨⟨rds, ws, snt⟩, tok, intr, q, rc, wc, rst⟩ := c
    simp only at hrc hreads
    subst hrc
    subst hreads
    unfold Connection.readable Connection.read_message_length Sock.read
    simp [beWrite8_take8, beWrite8_length, beRead_beWrite8 0 (by norm_num)]

/-- Witness for C7 at the concrete payload `"hi" = [104, 105]` and at the
empty payload. -/
theorem C7_roundtrip_decode_encode_witness :
    Connection.readable
        ⟨⟨[.data ((encode [104, 105]).take 8), .data ((encode [104, 105]).drop 8)], [], []⟩,
          2, ⟨true, false, true⟩, [], none, false, false⟩
      = (.ok (some [104, 105]), ⟨⟨[], [], []⟩, 2, ⟨true, false, true⟩, [], none, false, false⟩)
    ∧ Connection.readable
        ⟨⟨[.data ((encode []).take 8), .data ((encode []).drop 8)], [], []⟩,
          2, ⟨true, false, true⟩, [], none, false, false⟩
      = (.ok none, ⟨⟨[.data []], [], []⟩, 2, ⟨true, false, true⟩, [], none, false, false⟩) := by
  constructor
  · exact (C7_roundtrip_decode_encode [104, 105] _ (by norm_num) rfl rfl).1 (by decide)
  · exact (C7_roundtrip_decode_encode [] _ (by norm_num) rfl rfl).2 rfl

/-- Helper: when `write_message` succeeds and leaves the send queue empty,
the frame was fully transmitted, so no write continuation remains. -/
theorem Connection.write_message_queue_empty_wc (c : Connection) (buf : List Nat) :
    (Connection.write_message c buf).1 = .ok () →
    ((Connection.write_message c buf).2).send_queue = [] →
    ((Connection.write_message c buf).2).write_continuation = false := by
  unfold Connection.write_message
  split
  case h_1 c₁ hw => intro h1 h2; simp at h2
  case h_2 e c₁ hw => intro h1 h2; simp at h1
  case h_3 val c₁ hw =>
    split
    case h_1 n s heq => split <;> intro h1 h2 <;> simp_all
    case h_2 s heq => intro h1 h2; simp_all
    case h_3 s heq => intro h1 h2; simp_all

/-- Claim C2 counterexample: a connection with the frame `[97, 98]` queued
(10 bytes on the wire: 8-byte header plus 2 payload bytes) whose socket
accepts only k = 3 bytes of the send.  `writable` returns an error — the
connection is torn down — with nothing re-queued and no continuation set,
instead of re-queueing the remainder at the head and resuming at byte 3 on
the next dispatch as the claim requires for every 0 < k < total. -/
theorem C2_short_header_write_cex :
    Connection.writable
        ⟨⟨[], [.wrote 3], []⟩, 2, ⟨true, true, true⟩, [[97, 98]], none, false, false⟩
      = (.error (), ⟨⟨[], [], [0, 0, 0]⟩, 2, ⟨true, true, true⟩, [], none, false, false⟩) := by
  decide

/-- Claim C2 as amended: partial-write resumption holds once the 8-byte
header has been accepted in full.  If a send completes the header plus
`j < payload.length` payload bytes (k = 8 + j of the frame's total), the
remainder `payload[j..]` is re-queued at the head, the write continuation
is set, and the next writable dispatch resumes exactly at byte k — the
transmission trace grows by exactly `encode payload` across the two
dispatches, with no byte retransmitted, dropped or reordered, and no
subsequent queued frame started before this one drains.  (A short but
non-zero header write, k < 8, is instead a fatal connection error — see
the counterexample.)  Third conjunct: writable interest is only ever
cleared when the queue has become empty and no continuation remains. -/
theorem C2_partial_write_resumes (payload : List Nat) (rest : List (List Nat))
    (reads : List ReadRes) (sent₀ : List Nat) (rc : Option Nat) (token : Nat)
    (intr : Ready) (j : Nat) (hj : j < payload.length) :
    (Connection.writable
        ⟨⟨reads, [.wrote 8, .wrote j, .wrote (payload.length - j)], sent₀⟩, token, intr,
          payload :: rest, rc, false, false⟩
      = (.ok (),
          ⟨⟨reads, [.wrote (payload.length - j)],
              sent₀ ++ beWrite8 payload.length ++ payload.take j⟩,
            token, intr, payload.drop j :: rest, rc, true, false⟩))
    ∧ (Connection.writable
        ⟨⟨reads, [.wrote (payload.length - j)],
            sent₀ ++ beWrite8 payload.length ++ payload.take j⟩,
          token, intr, payload.drop j :: rest, rc, true, false⟩
      = (.ok (),
          ⟨⟨reads, [], sent₀ ++ encode payload⟩, token,
            (if rest.isEmpty then { intr with wr := false } else intr), rest, rc, false,
            false⟩))
    ∧ (∀ c c' : Connection, Connection.writable c = (.ok (), c') →
        c'.interest.wr ≠ c.interest.wr →
        c'.send_queue = [] ∧ c'.write_continuation = false) := by
  have hdrop : (payload.drop j).take (payload.length - j) = payload.drop j := by
    rw [← List.length_drop]; exact List.take_length _
  refine ⟨?_, ?_, ?_⟩
  · unfold Connection.writable Connection.write_message Connection.write_message_length
      Sock.write
    simp [beWrite8_length, Nat.min_self, Nat.min_eq_left hj.le, hj]
  · cases rest with
    | nil =>
      unfold Connection.writable Connection.write_message Connection.write_message_length
        Sock.write
      simp [List.length_drop, Nat.min_self, hdrop, encode]
    | cons q qs =>
      unfold Connection.writable Connection.write_message Connection.write_message_length
        Sock.write
      simp [List.length_drop, Nat.min_self, hdrop, encode]
  · intro c c' hw hint
    unfold Connection.writable at hw
    split at hw
    case h_1 => simp at hw
    case h_2 buf rest' hq =>
      split at hw
      case h_1 e c₁ hwm => simp at hw
      case h_2 c₁ hwm =>
        have hf := Connection.write_message_fields ({ c with send_queue := rest' }) buf
        have hwc := Connection.write_message_queue_empty_wc ({ c with send_queue := rest' }) buf
        rw [hwm] at hf hwc
        obtain ⟨hfi, -, -, -, -⟩ := hf
        by_cases hqe : c₁.send_queue.isEmpty
        · have hq1 : c₁.send_queue = [] := by simpa using hqe
          simp only [hqe, if_true] at hw
          have hc' : c' = { c₁ with interest := { c₁.interest with wr := false } } := by
            simp only [Prod.mk.injEq] at hw
            exact hw.2.symm
          subst hc'
          exact ⟨hq1, hwc rfl hq1⟩
        · simp only [hqe, Bool.false_eq_true, if_false] at hw
          have hc' : c' = c₁ := by
            simp only [Prod.mk.injEq] at hw
            exact hw.2.symm
          subst hc'
          exact absurd (by rw [hfi]) hint

/-- Witness for C2 at payload `[10, 20, 30]`, j = 1, empty remaining
queue. -/
theorem C2_partial_write_resumes_witness :
    (Connection.writable
        ⟨⟨[], [.wrote 8, .wrote 1, .wrote 2], []⟩, 2, ⟨true, true, true⟩,
          [[10, 20, 30]], none, false, false⟩
      = (.ok (),
          ⟨⟨[], [.wrote 2], beWrite8 3 ++ [10]⟩, 2, ⟨true, true, true⟩,
            [[20, 30]], none, true, false⟩))
    ∧ (Connection.writable
        ⟨⟨[], [.wrote 2], beWrite8 3 ++ [10]⟩, 2, ⟨true, true, true⟩,
          [[20, 30]], none, true, false⟩
      = (.ok (),
          ⟨⟨[], [], encode [10, 20, 30]⟩, 2, ⟨true, false, true⟩, [], none, false,
            false⟩)) := by
  have h := C2_partial_write_resumes [10, 20, 30] [] [] [] none 2 ⟨true, true, true⟩ 1
    (by decide)
  exact ⟨h.1, h.2.1⟩

/-- Helper: looking a token up after a token-preserving in-place update of
the table rewrites only the entry stored at that token. -/
theorem find?_map_token (l : List (Nat × Connection)) (t : Nat)
    (g : Nat × Connection → Connection) :
    (l.map (fun p => if p.1 == t then (p.1, g p) else p)).find? (·.1 == t)
      = (l.find? (·.1 == t)).map (fun p => (p.1, g p)) := by
  induction l with
  | nil => rfl
  | cons p l ih =>
    cases hb : (p.1 == t) with
    | true =>
      rw [List.map_cons, if_pos hb, List.find?_cons, List.find?_cons]
      dsimp only
      rw [hb]
      exact rfl
    | false =>
      rw [List.map_cons, if_neg (by simp [hb]), List.find?_cons, List.find?_cons]
      rw [hb]
      exact ih

/-- Helper: entries whose token differs from the updated one are untouched
by a token-targeted table update. -/
theorem mem_map_token_of_ne (l : List (Nat × Connection)) (t : Nat)
    (g : Nat × Connection → Connection) (p : Nat × Connection)
    (hp : p ∈ l) (hne : p.1 ≠ t) :
    p ∈ l.map (fun q => if q.1 == t then (q.1, g q) else q) := by
  have : (fun q => if q.1 == t then (q.1, g q) else q) p = p := by
    simp [hne]
  rw [← this]
  exact List.mem_map_of_mem _ hp

/-- Helper: `getConn` after `updateConn` at a live token returns the stored
connection. -/
theorem Server.getConn_updateConn_self (s : Server) (t : Nat) (c : Connection)
    (h : (s.conns.find? (·.1 == t)).isSome) :
    (s.updateConn t c).getConn t = c := by
  unfold Server.updateConn Server.getConn
  simp only
  rw [show (fun p : Nat × Connection => if p.1 == t then (p.1, c) else p)
        = (fun p : Nat × Connection => if p.1 == t then (p.1, (fun _ => c) p) else p) from rfl,
      find?_map_token]
  cases hf : s.conns.find? (·.1 == t) with
  | none => rw [hf] at h; simp at h
  | some p => simp

/-- Helper: `getConn` after `resetConnection` at a live non-listener token
is the stored connection with the Draining flag set. -/
theorem Server.getConn_resetConnection_self (s : Server) (t : Nat)
    (hts : s.token ≠ t) (h : (s.conns.find? (·.1 == t)).isSome) :
    (s.resetConnection t).getConn t = ((s.getConn t).mark_reset) := by
  unfold Server.resetConnection Server.getConn
  simp only [if_neg hts]
  rw [show (fun p : Nat × Connection => if p.1 == t then (p.1, p.2.mark_reset) else p)
        = (fun p : Nat × Connection => if p.1 == t then (p.1, (fun q : Nat × Connection => q.2.mark_reset) p) else p) from rfl,
      find?_map_token]
  cases hf : s.conns.find? (·.1 == t) with
  | none => rw [hf] at h; simp at h
  | some p => simp

/-- Helper: a live token stays live across `updateConn`. -/
theorem Server.find?_updateConn_isSome (s : Server) (t : Nat) (c : Connection)
    (h : (s.conns.find? (·.1 == t)).isSome) :
    ((s.updateConn t c).conns.find? (·.1 == t)).isSome := by
  unfold Server.updateConn
  simp only
  rw [show (fun p : Nat × Connection => if p.1 == t then (p.1, c) else p)
        = (fun p : Nat × Connection => if p.1 == t then (p.1, (fun _ => c) p) else p) from rfl,
      find?_map_token]
  cases hf : s.conns.find? (·.1 == t) with
  | none => rw [hf] at h; simp at h
  | some p => simp

/-- Helper: resetting a non-listener token queues it for the sweep. -/
theorem Server.resetConnection_reset_tokens (s : Server) (t : Nat) (hts : s.token ≠ t) :
    (s.resetConnection t).reset_tokens = s.reset_tokens ++ [t] := by
  unfold Server.resetConnection
  rw [if_neg hts]

/-- Helper: resetting a non-listener token leaves the shutdown flag
alone. -/
theorem Server.resetConnection_shutdown (s : Server) (t : Nat) (hts : s.token ≠ t) :
    (s.resetConnection t).shutdown = s.shutdown := by
  unfold Server.resetConnection
  rw [if_neg hts]

/-- Helper: resetting one token leaves every other table entry exactly as
it was. -/
theorem Server.resetConnection_conns_mem (s : Server) (t : Nat) (hts : s.token ≠ t)
    (p : Nat × Connection) (hp : p ∈ s.conns) (hne : p.1 ≠ t) :
    p ∈ (s.resetConnection t).conns := by
  unfold Server.resetConnection
  rw [if_neg hts]
  exact mem_map_token_of_ne _ _ _ _ hp hne

/-- Helper: updating one token leaves every other table entry exactly as
it was. -/
theorem Server.updateConn_conns_mem (s : Server) (t : Nat) (c : Connection)
    (p : Nat × Connection) (hp : p ∈ s.conns) (hne : p.1 ≠ t) :
    p ∈ (s.updateConn t c).conns := by
  unfold Server.updateConn
  exact mem_map_token_of_ne _ _ _ _ hp hne

/-- Helper: a connection whose socket script is non-trivial is live — the
default connection returned for a dead token has an empty read script. -/
theorem Server.find?_isSome_of_reads_ne (s : Server) (t : Nat)
    (h : (s.getConn t).sock.reads ≠ []) :
    (s.conns.find? (·.1 == t)).isSome := by
  by_contra hn
  unfold Server.getConn at h
  cases hf : s.conns.find? (·.1 == t) with
  | none => rw [hf] at h; simp at h; exact h rfl
  | some p => rw [hf] at hn; simp at hn

/-- Helper: would-block on the 8-byte header read is a pure retry signal:
no frame, no error, continuation still clear. -/
theorem Connection.readable_header_wouldBlock (c : Connection) (rest : List ReadRes)
    (hrc : c.read_continuation = none)
    (hreads : c.sock.reads = .wouldBlock :: rest) :
    Connection.readable c = (.ok none, { c with sock := { c.sock with reads := rest } }) := by
  obtain ⟨⟨rds, ws, snt⟩, tok, intr, q, rc, wc, rst⟩ := c
  simp only at hrc hreads
  subst hrc
  subst hreads
  unfold Connection.readable Connection.read_message_length Sock.read
  simp

/-- Helper: a header read that delivers fewer than 8 bytes (including a
clean end-of-stream delivering 0) is `ErrorKind::InvalidData`. -/
theorem Connection.readable_short_header (c : Connection) (bs : List Nat)
    (rest : List ReadRes) (hrc : c.read_continuation = none)
    (hreads : c.sock.reads = .data bs :: rest) (hlen : bs.length < 8) :
    Connection.readable c = (.error (), { c with sock := { c.sock with reads := rest } }) := by
  obtain ⟨⟨rds, ws, snt⟩, tok, intr, q, rc, wc, rst⟩ := c
  simp only at hrc hreads
  subst hrc
  subst hreads
  unfold Connection.readable Connection.read_message_length Sock.read
  simp [List.length_take, Nat.min_eq_right (le_of_lt hlen), hlen]

/-- Claim C6: with no pending read continuation, a would-block on the
header read produces no frame and no error and leaves the continuation
clear (first conjunct), while a header read delivering fewer than 8 bytes
is a framing violation fatal to that connection only: `readable` returns
an error, the reactor's dispatch marks exactly that connection as Draining
and queues its token for the sweep, every other connection's entry is
untouched, and the service keeps running (second conjunct). -/
theorem C6_short_header_fatal_isolated :
    (∀ (c : Connection) (rest : List ReadRes),
      c.read_continuation = none → c.sock.reads = .wouldBlock :: rest →
      Connection.readable c = (.ok none, { c with sock := { c.sock with reads := rest } }))
    ∧ (∀ (s : Server) (t : Nat) (bs : List Nat) (rest : List ReadRes),
        s.token ≠ t →
        (s.getConn t).reset = false →
        (s.getConn t).read_continuation = none →
        (s.getConn t).sock.reads = .data bs :: rest →
        bs.length < 8 →
        (Connection.readable (s.getConn t)).1 = .error ()
        ∧ ((s.readyReadable t).getConn t).reset = true
        ∧ t ∈ (s.readyReadable t).reset_tokens
        ∧ (∀ p ∈ s.conns, p.1 ≠ t → p ∈ (s.readyReadable t).conns)
        ∧ (s.readyReadable t).shutdown = s.shutdown) := by
  refine ⟨Connection.readable_header_wouldBlock, ?_⟩
  intro s t bs rest hts hrst hrc hreads hlen
  have herr := Connection.readable_short_header (s.getConn t) bs rest hrc hreads hlen
  have hlive : (s.conns.find? (·.1 == t)).isSome :=
    Server.find?_isSome_of_reads_ne s t (by rw [hreads]; simp)
  have hloop : Server.readable s t =
      (.error (), s.updateConn t
        { s.getConn t with sock := { (s.getConn t).sock with reads := rest } }) := by
    unfold Server.readable
    rw [hreads]
    simp only [List.length_cons, Server.readableLoopF]
    rw [herr]
  have hrr : s.readyReadable t =
      (s.updateConn t
        { s.getConn t with sock := { (s.getConn t).sock with reads := rest } }).resetConnection t := by
    unfold Server.readyReadable
    rw [if_neg (by simp [Connection.is_reset, hrst]), hloop]
  have hup := Server.getConn_updateConn_self s t
    ({ s.getConn t with sock := { (s.getConn t).sock with reads := rest } }) hlive
  have hreset := Server.getConn_resetConnection_self
    (s.updateConn t ({ s.getConn t with sock := { (s.getConn t).sock with reads := rest } })) t hts
    (Server.find?_updateConn_isSome s t _ hlive)
  refine ⟨by rw [herr], ?_, ?_, ?_, ?_⟩
  · rw [hrr, hreset, hup]
    rfl
  · rw [hrr, Server.resetConnection_reset_tokens
      (s.updateConn t ({ s.getConn t with sock := { (s.getConn t).sock with reads := rest } })) t hts]
    simp
  · intro p hp hpt
    rw [hrr]
    exact Server.resetConnection_conns_mem
      (s.updateConn t ({ s.getConn t with sock := { (s.getConn t).sock with reads := rest } })) t hts p
      (Server.updateConn_conns_mem s t _ p hp hpt) hpt
  · rw [hrr, Server.resetConnection_shutdown
      (s.updateConn t ({ s.getConn t with sock := { (s.getConn t).sock with reads := rest } })) t hts]
    rfl

/-- Witness for C6: a two-connection server in which connection 2's header
read delivers a single byte; connection 2 alone is marked Draining and
connection 3 is untouched; plus the would-block retry case. -/
theorem C6_short_header_fatal_isolated_witness :
    Connection.readable
        ⟨⟨[.wouldBlock], [], []⟩, 2, ⟨true, false, true⟩, [], none, false, false⟩
      = (.ok none, ⟨⟨[], [], []⟩, 2, ⟨true, false, true⟩, [], none, false, false⟩)
    ∧ (Connection.readable
        ((⟨1, [(2, ⟨⟨[.data [9]], [], []⟩, 2, ⟨true, false, true⟩, [], none, false, false⟩),
              (3, ⟨⟨[], [], []⟩, 3, ⟨true, false, true⟩, [], none, false, false⟩)], [], false⟩ :
          Server).getConn 2)).1 = .error ()
    ∧ (((⟨1, [(2, ⟨⟨[.data [9]], [], []⟩, 2, ⟨true, false, true⟩, [], none, false, false⟩),
              (3, ⟨⟨[], [], []⟩, 3, ⟨true, false, true⟩, [], none, false, false⟩)], [], false⟩ :
          Server).readyReadable 2).getConn 2).reset = true := by
  have h1 := C6_short_header_fatal_isolated.1
    ⟨⟨[.wouldBlock], [], []⟩, 2, ⟨true, false, true⟩, [], none, false, false⟩ [] rfl rfl
  have h2 := C6_short_header_fatal_isolated.2
    ⟨1, [(2, ⟨⟨[.data [9]], [], []⟩, 2, ⟨true, false, true⟩, [], none, false, false⟩),
         (3, ⟨⟨[], [], []⟩, 3, ⟨true, false, true⟩, [], none, false, false⟩)], [], false⟩
    2 [9] [] (by decide) (by decide) (by decide) (by decide) (by decide)
  exact ⟨h1, h2.1, h2.2.1⟩

/-- Claim C10: `Connection::writable` on an empty send queue returns the
"Could not pop send queue" error rather than being a no-op, and the
reactor's writable dispatch then resets that connection: a spurious
writable event on a connection with nothing queued marks it Draining and
queues it for removal. -/
theorem C10_empty_queue_writable_fatal (s : Server) (t : Nat)
    (hts : s.token ≠ t)
    (hq : (s.getConn t).send_queue = [])
    (hrst : (s.getConn t).reset = false)
    (hlive : (s.conns.find? (·.1 == t)).isSome) :
    Connection.writable (s.getConn t) = (.error (), s.getConn t)
    ∧ ((s.readyWritable t).getConn t).reset = true
    ∧ t ∈ (s.readyWritable t).reset_tokens := by
  have herr : Connection.writable (s.getConn t) = (.error (), s.getConn t) := by
    unfold Connection.writable
    rw [hq]
  have hrw : s.readyWritable t = (s.updateConn t (s.getConn t)).resetConnection t := by
    unfold Server.readyWritable
    rw [if_neg (by simp [Connection.is_reset, hrst]), herr]
  have hup := Server.getConn_updateConn_self s t (s.getConn t) hlive
  have hreset := Server.getConn_resetConnection_self
    (s.updateConn t (s.getConn t)) t hts (Server.find?_updateConn_isSome s t _ hlive)
  refine ⟨herr, ?_, ?_⟩
  · rw [hrw, hreset, hup]
    rfl
  · rw [hrw, Server.resetConnection_reset_tokens (s.updateConn t (s.getConn t)) t hts]
    simp

/-- Witness for C10: a single idle connection destroyed by a spurious
writable event. -/
theorem C10_empty_queue_writable_fatal_witness :
    Connection.writable
        ((⟨1, [(2, ⟨⟨[], [], []⟩, 2, ⟨true, false, true⟩, [], none, false, false⟩)], [], false⟩ :
          Server).getConn 2)
      = (.error (),
          (⟨1, [(2, ⟨⟨[], [], []⟩, 2, ⟨true, false, true⟩, [], none, false, false⟩)], [], false⟩ :
            Server).getConn 2)
    ∧ (((⟨1, [(2, ⟨⟨[], [], []⟩, 2, ⟨true, false, true⟩, [], none, false, false⟩)], [], false⟩ :
          Server).readyWritable 2).getConn 2).reset = true := by
  have h := C10_empty_queue_writable_fatal
    ⟨1, [(2, ⟨⟨[], [], []⟩, 2, ⟨true, false, true⟩, [], none, false, false⟩)], [], false⟩
    2 (by decide) (by decide) (by decide) (by decide)
  exact ⟨h.1, h.2.1⟩

set_option maxRecDepth 4096 in
/-- Claim C8 counterexample: in the legacy reactor of `src/main.rs`, an
accept performed while the 128-slot table is full panics — `insert_with`
returns `None` and `Server::accept` calls `.unwrap()` on it (main.rs line
268), crashing the whole service rather than skipping the accept. -/
theorem C8_main_accept_crash :
    MainServer.accept
        ⟨1, (List.range 128).map (fun i => (i + 2, MainConnection.new ⟨[], [], []⟩ (i + 2)))⟩
        ⟨[], [], []⟩
      = .error () := by
  rfl

/-- Claim C8 as amended: in the reactor of `src/server.rs`, an accept at
capacity is graceful — `Slab::insert_with` returns no token, the pending
accept is skipped (and logged), the service neither shuts down nor panics,
and every existing connection's entry is left exactly as it was.  In the
legacy reactor of `src/main.rs` the same situation panics (see the
counterexample), so "the service does not crash" holds only for the
`server.rs` reactor. -/
theorem C8_accept_at_capacity (s : Server) (sock : Sock)
    (hfull : ∀ u ∈ (List.range Server.slabCapacity).map (· + Server.slabStart),
        s.conns.any (·.1 == u) = true) :
    Server.slabInsert s.conns (fun token => Connection.new sock token) = (none, s.conns)
    ∧ (s.accept sock).conns = s.conns
    ∧ (s.accept sock).shutdown = s.shutdown
    ∧ (s.accept sock).reset_tokens = s.reset_tokens := by
  have hnone : ((List.range Server.slabCapacity).map (· + Server.slabStart)).find?
      (fun t => !s.conns.any (·.1 == t)) = none := by
    apply List.find?_eq_none.mpr
    intro u hu
    simp [hfull u hu]
  have hins : Server.slabInsert s.conns (fun token => Connection.new sock token)
      = (none, s.conns) := by
    unfold Server.slabInsert
    rw [hnone]
  refine ⟨hins, ?_, ?_, ?_⟩ <;>
    · unfold Server.accept
      rw [hins]

set_option maxRecDepth 4096 in
/-- Witness for C8 at a concrete full table (tokens 2 through 129 all
occupied). -/
theorem C8_accept_at_capacity_witness :
    (Server.accept
        ⟨1, (List.range 128).map (fun i => (i + 2, (default : Connection))), [], false⟩
        ⟨[], [], []⟩).conns
      = (List.range 128).map (fun i => (i + 2, (default : Connection)))
    ∧ (Server.accept
        ⟨1, (List.range 128).map (fun i => (i + 2, (default : Connection))), [], false⟩
        ⟨[], [], []⟩).shutdown = false := by
  have h := C8_accept_at_capacity
    ⟨1, (List.range 128).map (fun i => (i + 2, (default : Connection))), [], false⟩
    ⟨[], [], []⟩ (by decide)
  exact ⟨h.2.1, h.2.2.1⟩

theorem mkScript_nil : mkScript [] = [] := rfl

theorem mkScript_cons (f : List Nat) (fs : List (List Nat)) :
    mkScript (f :: fs) = .data (beWrite8 f.length) :: .data f :: mkScript fs := rfl

theorem mkScript_length (frames : List (List Nat)) :
    (mkScript frames).length = 2 * frames.length := by
  induction frames with
  | nil => rfl
  | cons f fs ih =>
    rw [mkScript_cons]
    simp only [List.length_cons, ih]
    omega

/-- Helper: in a table whose keys are nodup, two entries with the same
token coincide. -/
theorem nodup_keys_eq {l : List (Nat × Connection)} (hnd : (l.map Prod.fst).Nodup)
    {p q : Nat × Connection} (hp : p ∈ l) (hq : q ∈ l) (hfst : p.1 = q.1) : p = q := by
  induction l with
  | nil => cases hp
  | cons r l ih =>
    simp only [List.map_cons, List.nodup_cons] at hnd
    obtain ⟨hr, hnd'⟩ := hnd
    rcases List.mem_cons.mp hp with hp' | hp' <;> rcases List.mem_cons.mp hq with hq' | hq'
    · rw [hp', hq']
    · subst hp'
      have : q.1 ∈ l.map Prod.fst := List.mem_map_of_mem Prod.fst hq'
      rw [← hfst] at this
      exact absurd this hr
    · subst hq'
      have : p.1 ∈ l.map Prod.fst := List.mem_map_of_mem Prod.fst hp'
      rw [hfst] at this
      exact absurd this hr
    · exact ih hnd' hp' hq'

/-- Helper: `find?` over a key-preserving table transformation. -/
theorem find?_map_keys (l : List (Nat × Connection)) (t : Nat)
    (g : Nat × Connection → Connection) :
    (l.map (fun p => (p.1, g p))).find? (·.1 == t)
      = (l.find? (·.1 == t)).map (fun p => (p.1, g p)) := by
  induction l with
  | nil => rfl
  | cons p l ih =>
    rw [List.map_cons, List.find?_cons, List.find?_cons]
    dsimp only
    cases hb : (p.1 == t) with
    | true => exact rfl
    | false => exact ih

/-- Helper: `getConn` through a key-preserving table transformation. -/
theorem Server.getConn_eq_of_conns (s₁ s₂ : Server) (g : Nat × Connection → Connection)
    (h : s₂.conns = s₁.conns.map (fun p => (p.1, g p))) (t : Nat) :
    s₂.getConn t
      = match s₁.conns.find? (·.1 == t) with
        | some p => g p
        | none => default := by
  unfold Server.getConn
  rw [h, find?_map_keys]
  cases s₁.conns.find? (·.1 == t) <;> rfl

theorem Server.resetConnection_token (s : Server) (t : Nat) :
    (s.resetConnection t).token = s.token := by
  unfold Server.resetConnection
  split <;> rfl

theorem Connection.mark_reset_idem (c : Connection) :
    c.mark_reset.mark_reset = c.mark_reset := rfl

theorem Connection.mark_reset_fields (c : Connection) :
    c.mark_reset.sock = c.sock ∧ c.mark_reset.send_queue = c.send_queue ∧
    c.mark_reset.read_continuation = c.read_continuation ∧
    c.mark_reset.write_continuation = c.write_continuation ∧
    c.mark_reset.interest = c.interest ∧ c.mark_reset.token = c.token :=
  ⟨rfl, rfl, rfl, rfl, rfl, rfl⟩

/-- Helper: the fan-out loop is a pointwise `send_message` pass that also
collects the tokens whose enqueue failed, in table order. -/
theorem Server.fanoutLoop_eq (m : List Nat) (l : List (Nat × Connection)) :
    Server.fanoutLoop m l
      = (l.map (fun p => (p.1, (Connection.send_message p.2 m).2)),
         l.filterMap (fun p =>
           if (Connection.send_message p.2 m).1 = .error () then some p.1 else none)) := by
  induction l with
  | nil => rfl
  | cons p l ih =>
    unfold Server.fanoutLoop
    rw [ih]
    cases hsm : Connection.send_message p.2 m with
    | mk r c₁ =>
      cases r with
      | ok u => cases u; simp [hsm, Connection.reregister]
      | error e => cases e; simp [hsm]

/-- Helper: running `reset_connection` over a batch of non-listener tokens
marks exactly the entries with those tokens, appends the batch to
`reset_tokens`, and touches nothing else. -/
theorem Server.foldl_resetConnection (B : List Nat) (s : Server)
    (hB : ∀ t ∈ B, s.token ≠ t) :
    (B.foldl (fun srv t => srv.resetConnection t) s).conns
        = s.conns.map (fun p => if p.1 ∈ B then (p.1, p.2.mark_reset) else p)
    ∧ (B.foldl (fun srv t => srv.resetConnection t) s).reset_tokens = s.reset_tokens ++ B
    ∧ (B.foldl (fun srv t => srv.resetConnection t) s).shutdown = s.shutdown
    ∧ (B.foldl (fun srv t => srv.resetConnection t) s).token = s.token := by
  induction B generalizing s with
  | nil =>
    refine ⟨?_, by simp, rfl, rfl⟩
    simp
  | cons t₀ B ih =>
    have ht₀ : s.token ≠ t₀ := hB t₀ (List.mem_cons_self t₀ B)
    have hB' : ∀ t ∈ B, (s.resetConnection t₀).token ≠ t := by
      intro t ht
      rw [Server.resetConnection_token]
      exact hB t (List.mem_cons_of_mem t₀ ht)
    obtain ⟨ihc, ihr, ihs, iht⟩ := ih (s.resetConnection t₀) hB'
    have hconns : (s.resetConnection t₀).conns
        = s.conns.map (fun p => if p.1 == t₀ then (p.1, p.2.mark_reset) else p) := by
      unfold Server.resetConnection
      rw [if_neg ht₀]
    refine ⟨?_, ?_, ?_, ?_⟩
    · rw [List.foldl_cons, ihc, hconns, List.map_map]
      have hfe : ((fun p => if p.1 ∈ B then (p.1, p.2.mark_reset) else p) ∘
            (fun p : Nat × Connection => if p.1 == t₀ then (p.1, p.2.mark_reset) else p))
          = (fun p : Nat × Connection => if p.1 ∈ t₀ :: B then (p.1, p.2.mark_reset) else p) := by
        funext p
        by_cases h₀ : p.1 = t₀ <;> by_cases hN : p.1 ∈ B <;>
          simp [Function.comp, h₀, hN, List.mem_cons, Connection.mark_reset_idem]
      rw [hfe]
    · rw [List.foldl_cons, ihr, Server.resetConnection_reset_tokens s t₀ ht₀]
      simp
    · rw [List.foldl_cons, ihs, Server.resetConnection_shutdown s t₀ ht₀]
    · rw [List.foldl_cons, iht, Server.resetConnection_token s t₀]

/-- Helper: membership after the sweep's token-by-token removal. -/
theorem foldl_filter_mem (B : List Nat) (l : List (Nat × Connection)) (p : Nat × Connection) :
    p ∈ B.foldl (fun cs t => cs.filter (fun q => !(q.1 == t))) l ↔ p ∈ l ∧ p.1 ∉ B := by
  induction B generalizing l with
  | nil => simp
  | cons t₀ B ih =>
    rw [List.foldl_cons, ih]
    simp only [List.mem_filter, List.mem_cons]
    constructor
    · rintro ⟨⟨hpl, hpt⟩, hpB⟩
      refine ⟨hpl, ?_⟩
      rintro (h | h)
      · simp [h] at hpt
      · exact hpB h
    · rintro ⟨hpl, hpn⟩
      refine ⟨⟨hpl, ?_⟩, fun h => hpn (Or.inr h)⟩
      simp only [Bool.not_eq_eq_eq_not, Bool.not_true, beq_eq_false_iff_ne, ne_eq]
      exact fun h => hpn (Or.inl h)

/-- Helper: the sweep (`tick`) removes exactly the queued tokens. -/
theorem Server.tick_mem (s : Server) (p : Nat × Connection) :
    p ∈ (s.tick).conns ↔ p ∈ s.conns ∧ p.1 ∉ s.reset_tokens := by
  unfold Server.tick
  exact foldl_filter_mem _ _ _

/-- Helper: `send_message` on a connection whose queue is non-empty is a
pure FIFO append at the tail. -/
theorem Connection.send_message_nonempty (c : Connection) (m : List Nat)
    (h : c.send_queue ≠ []) :
    (Connection.send_message c m).1 = .ok ()
    ∧ ((Connection.send_message c m).2).send_queue = c.send_queue ++ [m] := by
  unfold Connection.send_message
  cases hq : c.send_queue with
  | nil => exact absurd hq h
  | cons b q =>
    constructor <;>
      (simp only [List.isEmpty_cons, Bool.false_eq_true, if_false]; split <;> simp)

/-- Helper: full characterisation of one fan-out pass: every table entry is
replaced by its `send_message` result — additionally marked Draining when
that enqueue failed — and the failed tokens are appended to
`reset_tokens`; the listener token and shutdown flag are untouched. -/
theorem Server.fanout_conns (s : Server) (m : List Nat)
    (hts : ∀ p ∈ s.conns, s.token ≠ p.1) :
    (s.fanout m).conns = s.conns.map (fun p =>
        if p.1 ∈ s.conns.filterMap (fun q =>
            if (Connection.send_message q.2 m).1 = .error () then some q.1 else none)
        then (p.1, ((Connection.send_message p.2 m).2).mark_reset)
        else (p.1, (Connection.send_message p.2 m).2))
    ∧ (s.fanout m).reset_tokens = s.reset_tokens
        ++ s.conns.filterMap (fun q =>
            if (Connection.send_message q.2 m).1 = .error () then some q.1 else none)
    ∧ (s.fanout m).shutdown = s.shutdown
    ∧ (s.fanout m).token = s.token := by
  unfold Server.fanout
  rw [Server.fanoutLoop_eq]
  have hB : ∀ t ∈ s.conns.filterMap (fun q =>
      if (Connection.send_message q.2 m).1 = .error () then some q.1 else none),
      ({ s with conns := s.conns.map (fun p => (p.1, (Connection.send_message p.2 m).2)) } :
        Server).token ≠ t := by
    intro t ht
    obtain ⟨q, hq, hqt⟩ := List.mem_filterMap.mp ht
    have hq1 : q.1 = t := by
      by_cases he : (Connection.send_message q.2 m).1 = .error ()
      · rw [if_pos he] at hqt
        exact Option.some.inj hqt
      · rw [if_neg he] at hqt
        cases hqt
    exact fun h => (hts q hq) (h.trans hq1.symm)
  obtain ⟨hc, hr, hs, ht⟩ := Server.foldl_resetConnection _ _ hB
  refine ⟨?_, ?_, hs, ht⟩
  · rw [hc, List.map_map]
    have hfe : ((fun p => if p.1 ∈ s.conns.filterMap (fun q =>
          if (Connection.send_message q.2 m).1 = .error () then some q.1 else none)
          then (p.1, p.2.mark_reset) else p) ∘
        (fun p : Nat × Connection => (p.1, (Connection.send_message p.2 m).2)))
        = (fun p : Nat × Connection =>
          if p.1 ∈ s.conns.filterMap (fun q =>
              if (Connection.send_message q.2 m).1 = .error () then some q.1 else none)
          then (p.1, ((Connection.send_message p.2 m).2).mark_reset)
          else (p.1, (Connection.send_message p.2 m).2)) := by
      funext p
      by_cases hm : p.1 ∈ s.conns.filterMap (fun q =>
          if (Connection.send_message q.2 m).1 = .error () then some q.1 else none) <;>
        simp [Function.comp, hm]
    rw [hfe]
  · rw [hr]

/-- Helper: fan-out never adds or removes a table entry. -/
theorem Server.fanout_map_fst (s : Server) (m : List Nat)
    (hts : ∀ p ∈ s.conns, s.token ≠ p.1) :
    (s.fanout m).conns.map Prod.fst = s.conns.map Prod.fst := by
  rw [(Server.fanout_conns s m hts).1, List.map_map]
  have hfe : (Prod.fst ∘ (fun p : Nat × Connection =>
      if p.1 ∈ s.conns.filterMap (fun q =>
          if (Connection.send_message q.2 m).1 = .error () then some q.1 else none)
      then (p.1, ((Connection.send_message p.2 m).2).mark_reset)
      else (p.1, (Connection.send_message p.2 m).2)))
      = (Prod.fst : Nat × Connection → Nat) := by
    funext p
    by_cases hm : p.1 ∈ s.conns.filterMap (fun q =>
        if (Connection.send_message q.2 m).1 = .error () then some q.1 else none) <;>
      simp [Function.comp, hm]
  rw [hfe]

/-- Helper: fan-out leaves every connection's read side (pending read
results and read continuation) untouched, and preserves liveness of every
token. -/
theorem Server.fanout_read_side (s : Server) (m : List Nat) (t : Nat)
    (hts : ∀ p ∈ s.conns, s.token ≠ p.1) :
    ((s.fanout m).getConn t).sock.reads = (s.getConn t).sock.reads
    ∧ ((s.fanout m).getConn t).read_continuation = (s.getConn t).read_continuation
    ∧ (((s.fanout m).conns.find? (·.1 == t)).isSome
        ↔ (s.conns.find? (·.1 == t)).isSome) := by
  have hg := Server.getConn_eq_of_conns s (s.fanout m)
    (fun p => if p.1 ∈ s.conns.filterMap (fun q =>
        if (Connection.send_message q.2 m).1 = .error () then some q.1 else none)
      then ((Connection.send_message p.2 m).2).mark_reset
      else (Connection.send_message p.2 m).2)
    (by
      rw [(Server.fanout_conns s m hts).1]
      congr 1
      funext p
      by_cases hm : p.1 ∈ s.conns.filterMap (fun q =>
          if (Connection.send_message q.2 m).1 = .error () then some q.1 else none) <;>
        simp [hm]) t
  have hfind : (s.fanout m).conns.find? (·.1 == t)
      = (s.conns.find? (·.1 == t)).map (fun p =>
          (p.1, if p.1 ∈ s.conns.filterMap (fun q =>
              if (Connection.send_message q.2 m).1 = .error () then some q.1 else none)
            then ((Connection.send_message p.2 m).2).mark_reset
            else (Connection.send_message p.2 m).2)) := by
    have hc : (s.fanout m).conns = s.conns.map (fun p =>
        (p.1, if p.1 ∈ s.conns.filterMap (fun q =>
            if (Connection.send_message q.2 m).1 = .error () then some q.1 else none)
          then ((Connection.send_message p.2 m).2).mark_reset
          else (Connection.send_message p.2 m).2)) := by
      rw [(Server.fanout_conns s m hts).1]
      congr 1
      funext p
      by_cases hm : p.1 ∈ s.conns.filterMap (fun q =>
          if (Connection.send_message q.2 m).1 = .error () then some q.1 else none) <;>
        simp [hm]
    rw [hc, find?_map_keys]
  refine ⟨?_, ?_, ?_⟩
  · rw [hg]
    unfold Server.getConn
    cases hf : s.conns.find? (·.1 == t) with
    | none => rfl
    | some p =>
      dsimp only
      have hsm := (Connection.send_message_fields p.2 m).2.2.2.2.2
      split <;> simp [Connection.mark_reset, hsm]
  · rw [hg]
    unfold Server.getConn
    cases hf : s.conns.find? (·.1 == t) with
    | none => rfl
    | some p =>
      dsimp only
      have hsm := (Connection.send_message_fields p.2 m).2.2.2.1
      split <;> simp [Connection.mark_reset, hsm]
  · rw [hfind]
    cases s.conns.find? (·.1 == t) <;> simp

/-- Claim C3: during fan-out of one complete frame, every live table
entry — the originating connection included — is offered the frame via
`send_message` (a successful enqueue on a busy connection appends it at the
queue tail); a connection whose enqueue fails stays in the table, merely
marked Draining with its token queued, and is removed exactly at the
end-of-tick sweep, which deletes precisely the queued tokens. -/
theorem C3_fanout_broadcast (s : Server) (m : List Nat) (i : Nat) (ci : Connection)
    (hnd : (s.conns.map Prod.fst).Nodup)
    (hts : ∀ p ∈ s.conns, s.token ≠ p.1)
    (hi : (i, ci) ∈ s.conns) :
    ((s.fanout m).conns.map Prod.fst = s.conns.map Prod.fst)
    ∧ (∀ p ∈ s.conns,
        ((Connection.send_message p.2 m).1 = .ok () →
          (p.1, (Connection.send_message p.2 m).2) ∈ (s.fanout m).conns)
        ∧ ((Connection.send_message p.2 m).1 = .error () →
          (p.1, ((Connection.send_message p.2 m).2).mark_reset) ∈ (s.fanout m).conns
          ∧ p.1 ∈ (s.fanout m).reset_tokens)
        ∧ (p.2.send_queue ≠ [] →
          (Connection.send_message p.2 m).1 = .ok ()
          ∧ ((Connection.send_message p.2 m).2).send_queue = p.2.send_queue ++ [m]))
    ∧ ((Connection.send_message ci m).1 = .ok () →
        (i, (Connection.send_message ci m).2) ∈ (s.fanout m).conns)
    ∧ (∀ p ∈ (s.fanout m).conns,
        (p.1 ∈ (s.fanout m).reset_tokens → ∀ c', (p.1, c') ∉ ((s.fanout m).tick).conns)
        ∧ (p.1 ∉ (s.fanout m).reset_tokens → p ∈ ((s.fanout m).tick).conns)) := by
  obtain ⟨hc, hr, hs, ht⟩ := Server.fanout_conns s m hts
  have hok : ∀ p ∈ s.conns, (Connection.send_message p.2 m).1 = .ok () →
      (p.1, (Connection.send_message p.2 m).2) ∈ (s.fanout m).conns := by
    intro p hp hpok
    have hnB : p.1 ∉ s.conns.filterMap (fun q =>
        if (Connection.send_message q.2 m).1 = .error () then some q.1 else none) := by
      intro hmem
      obtain ⟨q, hq, hqt⟩ := List.mem_filterMap.mp hmem
      by_cases he : (Connection.send_message q.2 m).1 = .error ()
      · rw [if_pos he] at hqt
        have hq1 : q.1 = p.1 := Option.some.inj hqt
        have : q = p := nodup_keys_eq hnd hq hp hq1
        rw [this] at he
        rw [hpok] at he
        cases he
      · rw [if_neg he] at hqt
        cases hqt
    rw [hc]
    have := List.mem_map_of_mem (fun p : Nat × Connection =>
        if p.1 ∈ s.conns.filterMap (fun q =>
            if (Connection.send_message q.2 m).1 = .error () then some q.1 else none)
        then (p.1, ((Connection.send_message p.2 m).2).mark_reset)
        else (p.1, (Connection.send_message p.2 m).2)) hp
    dsimp only at this
    rw [if_neg hnB] at this
    exact this
  refine ⟨Server.fanout_map_fst s m hts, ?_, hok (i, ci) hi, ?_⟩
  · intro p hp
    refine ⟨hok p hp, ?_, Connection.send_message_nonempty p.2 m⟩
    intro herr
    have hB : p.1 ∈ s.conns.filterMap (fun q =>
        if (Connection.send_message q.2 m).1 = .error () then some q.1 else none) :=
      List.mem_filterMap.mpr ⟨p, hp, by rw [if_pos herr]⟩
    constructor
    · rw [hc]
      have := List.mem_map_of_mem (fun p : Nat × Connection =>
          if p.1 ∈ s.conns.filterMap (fun q =>
              if (Connection.send_message q.2 m).1 = .error () then some q.1 else none)
          then (p.1, ((Connection.send_message p.2 m).2).mark_reset)
          else (p.1, (Connection.send_message p.2 m).2)) hp
      dsimp only at this
      rw [if_pos hB] at this
      exact this
    · rw [hr]
      exact List.mem_append_right _ hB
  · intro p hp
    constructor
    · intro hres c' hmem
      exact ((Server.tick_mem _ _).mp hmem).2 hres
    · intro hres
      exact (Server.tick_mem _ _).mpr ⟨hp, hres⟩

/-- Witness for C3: two connections; the frame `[5]` is appended to busy
connection 2's queue (the sender itself included in the fan-out), while
connection 3's enqueue hits an I/O error: it stays in the table marked
Draining, its token is queued, and the sweep then removes exactly it. -/
theorem C3_fanout_broadcast_witness :
    (2, (⟨⟨[], [], []⟩, 2, ⟨true, true, true⟩, [[1], [5]], none, false, false⟩ : Connection))
      ∈ (Server.fanout
          ⟨1, [(2, ⟨⟨[], [], []⟩, 2, ⟨true, false, true⟩, [[1]], none, false, false⟩),
               (3, ⟨⟨[], [.ioErr], []⟩, 3, ⟨true, false, true⟩, [], none, false, false⟩)],
           [], false⟩ [5]).conns
    ∧ (3, (⟨⟨[], [], []⟩, 3, ⟨true, false, true⟩, [], none, false, true⟩ : Connection))
      ∈ (Server.fanout
          ⟨1, [(2, ⟨⟨[], [], []⟩, 2, ⟨true, false, true⟩, [[1]], none, false, false⟩),
               (3, ⟨⟨[], [.ioErr], []⟩, 3, ⟨true, false, true⟩, [], none, false, false⟩)],
           [], false⟩ [5]).conns
    ∧ 3 ∈ (Server.fanout
          ⟨1, [(2, ⟨⟨[], [], []⟩, 2, ⟨true, false, true⟩, [[1]], none, false, false⟩),
               (3, ⟨⟨[], [.ioErr], []⟩, 3, ⟨true, false, true⟩, [], none, false, false⟩)],
           [], false⟩ [5]).reset_tokens
    ∧ (2, (⟨⟨[], [], []⟩, 2, ⟨true, true, true⟩, [[1], [5]], none, false, false⟩ : Connection))
      ∈ ((Server.fanout
          ⟨1, [(2, ⟨⟨[], [], []⟩, 2, ⟨true, false, true⟩, [[1]], none, false, false⟩),
               (3, ⟨⟨[], [.ioErr], []⟩, 3, ⟨true, false, true⟩, [], none, false, false⟩)],
           [], false⟩ [5]).tick).conns
    ∧ (3, (⟨⟨[], [], []⟩, 3, ⟨true, false, true⟩, [], none, false, true⟩ : Connection))
      ∉ ((Server.fanout
          ⟨1, [(2, ⟨⟨[], [], []⟩, 2, ⟨true, false, true⟩, [[1]], none, false, false⟩),
               (3, ⟨⟨[], [.ioErr], []⟩, 3, ⟨true, false, true⟩, [], none, false, false⟩)],
           [], false⟩ [5]).tick).conns := by
  have h := C3_fanout_broadcast
    ⟨1, [(2, ⟨⟨[], [], []⟩, 2, ⟨true, false, true⟩, [[1]], none, false, false⟩),
         (3, ⟨⟨[], [.ioErr], []⟩, 3, ⟨true, false, true⟩, [], none, false, false⟩)],
     [], false⟩ [5] 2
    ⟨⟨[], [], []⟩, 2, ⟨true, false, true⟩, [[1]], none, false, false⟩
    (by decide) (by decide) (by decide)
  have h3 := (h.2.1 (3, ⟨⟨[], [.ioErr], []⟩, 3, ⟨true, false, true⟩, [], none, false, false⟩)
    (by decide)).2.1 (by decide)
  have h2 := h.2.2.1 (by decide)
  refine ⟨h2, h3.1, h3.2, ?_, ?_⟩
  · exact ((h.2.2.2 _ h2).2 (by decide))
  · exact ((h.2.2.2 _ h3.1).1 h3.2) _

theorem Server.updateConn_map_fst (s : Server) (t : Nat) (c : Connection) :
    (s.updateConn t c).conns.map Prod.fst = s.conns.map Prod.fst := by
  unfold Server.updateConn
  rw [List.map_map]
  have hfe : (Prod.fst ∘ (fun p : Nat × Connection => if p.1 == t then (p.1, c) else p))
      = (Prod.fst : Nat × Connection → Nat) := by
    funext p
    by_cases h : (p.1 == t) = true <;> simp [Function.comp, h]
  rw [hfe]

/-- Helper: the listener-token-disjointness invariant transfers along any
table transformation that preserves the key list and the listener token. -/
theorem hts_of_map_fst {s s' : Server}
    (hfst : s'.conns.map Prod.fst = s.conns.map Prod.fst) (htok : s'.token = s.token)
    (hts : ∀ p ∈ s.conns, s.token ≠ p.1) : ∀ p ∈ s'.conns, s'.token ≠ p.1 := by
  intro p hp
  have hmem : p.1 ∈ s.conns.map Prod.fst := by
    rw [← hfst]
    exact List.mem_map_of_mem _ hp
  obtain ⟨q, hq, hq1⟩ := List.mem_map.mp hmem
  rw [htok, ← hq1]
  exact hts q hq

/-- Helper: the reactor's readable drain loop consumes a script of complete
frames one frame per iteration (fanning each out), and stops at the first
read result on which `readable` reports no frame, consuming `k` stop
entries. -/
theorem Server.readableLoopF_drain (frames : List (List Nat)) (tail : List ReadRes) (k : Nat)
    (hstop : ∀ c : Connection, c.read_continuation = none → c.sock.reads = tail →
      Connection.readable c
        = (.ok none, { c with sock := { c.sock with reads := tail.drop k } })) :
    ∀ (fuel : Nat) (s : Server) (t : Nat),
      frames.length < fuel →
      (∀ f ∈ frames, f ≠ [] ∧ f.length < 2 ^ 64) →
      (∀ p ∈ s.conns, s.token ≠ p.1) →
      (s.conns.find? (·.1 == t)).isSome →
      (s.getConn t).read_continuation = none →
      (s.getConn t).sock.reads = mkScript frames ++ tail →
      (Server.readableLoopF fuel s t).1 = .ok frames
      ∧ (((Server.readableLoopF fuel s t).2).getConn t).sock.reads = tail.drop k := by
  induction frames with
  | nil =>
    intro fuel s t hfuel hwf hts hlive hrc hreads
    cases fuel with
    | zero => exact absurd hfuel (by omega)
    | succ fu =>
      rw [show mkScript [] ++ tail = tail from by rw [mkScript_nil]; rfl] at hreads
      have hr := hstop (s.getConn t) hrc hreads
      simp only [Server.readableLoopF]
      rw [hr]
      refine ⟨rfl, ?_⟩
      rw [Server.getConn_updateConn_self s t _ hlive]
  | cons f fs ih =>
    intro fuel s t hfuel hwf hts hlive hrc hreads
    cases fuel with
    | zero => exact absurd hfuel (by omega)
    | succ fu =>
      rw [mkScript_cons] at hreads
      simp only [List.cons_append] at hreads
      obtain ⟨hne, hlt⟩ := hwf f (List.mem_cons_self f fs)
      have hframe := Connection.readable_frame (s.getConn t) f (mkScript fs ++ tail)
        hrc hreads hne hlt
      have hliveU := Server.find?_updateConn_isSome s t
        ({ s.getConn t with
            sock := { (s.getConn t).sock with reads := mkScript fs ++ tail },
            read_continuation := none }) hlive
      have hgetU := Server.getConn_updateConn_self s t
        ({ s.getConn t with
            sock := { (s.getConn t).sock with reads := mkScript fs ++ tail },
            read_continuation := none }) hlive
      have htsU : ∀ p ∈ (s.updateConn t
          ({ s.getConn t with
              sock := { (s.getConn t).sock with reads := mkScript fs ++ tail },
              read_continuation := none })).conns,
          (s.updateConn t _).token ≠ p.1 :=
        hts_of_map_fst (Server.updateConn_map_fst s t _) rfl hts
      have hfan := Server.fanout_read_side (s.updateConn t
          ({ s.getConn t with
              sock := { (s.getConn t).sock with reads := mkScript fs ++ tail },
              read_continuation := none })) f t htsU
      have hts₁ : ∀ p ∈ ((s.updateConn t
          ({ s.getConn t with
              sock := { (s.getConn t).sock with reads := mkScript fs ++ tail },
              read_continuation := none })).fanout f).conns,
          ((s.updateConn t _).fanout f).token ≠ p.1 :=
        hts_of_map_fst (Server.fanout_map_fst _ f htsU)
          (Server.fanout_conns _ f htsU).2.2.2 htsU
      have hlive₁ := hfan.2.2.mpr hliveU
      have hrc₁ : (((s.updateConn t
          ({ s.getConn t with
              sock := { (s.getConn t).sock with reads := mkScript fs ++ tail },
              read_continuation := none })).fanout f).getConn t).read_continuation = none := by
        rw [hfan.2.1, hgetU]
      have hreads₁ : (((s.updateConn t
          ({ s.getConn t with
              sock := { (s.getConn t).sock with reads := mkScript fs ++ tail },
              read_continuation := none })).fanout f).getConn t).sock.reads
            = mkScript fs ++ tail := by
        rw [hfan.1, hgetU]
      obtain ⟨ih1, ih2⟩ := ih fu _ t (by simpa using Nat.lt_of_succ_lt_succ hfuel)
        (fun g hg => hwf g (List.mem_cons_of_mem f hg)) hts₁ hlive₁ hrc₁ hreads₁
      have hpair : Server.readableLoopF fu ((s.updateConn t
          ({ s.getConn t with
              sock := { (s.getConn t).sock with reads := mkScript fs ++ tail },
              read_continuation := none })).fanout f) t
          = (.ok fs, (Server.readableLoopF fu ((s.updateConn t
              ({ s.getConn t with
                  sock := { (s.getConn t).sock with reads := mkScript fs ++ tail },
                  read_continuation := none })).fanout f) t).2) := by
        rw [← ih1]
      simp only [Server.readableLoopF]
      rw [hframe]
      dsimp only
      rw [hpair]
      exact ⟨rfl, ih2⟩

/-- Claim C4 counterexample: a readable dispatch whose socket holds a
zero-length frame followed by a complete frame (`length 1, byte 42`)
produces no frames at all and stops before the would-block point: the
complete frame is left unread in the socket, because `readable` reports a
zero-length frame as `Ok(None)` and the server's `while let Some` loop
treats `None` as end of drain. -/
theorem C4_zero_length_stops_drain_cex :
    (Server.readable
        ⟨1, [(2, ⟨⟨[.data (beWrite8 0), .data (beWrite8 1), .data [42]], [], []⟩, 2,
              ⟨true, false, true⟩, [], none, false, false⟩)], [], false⟩ 2).1 = .ok []
    ∧ (((Server.readable
        ⟨1, [(2, ⟨⟨[.data (beWrite8 0), .data (beWrite8 1), .data [42]], [], []⟩, 2,
              ⟨true, false, true⟩, [], none, false, false⟩)], [], false⟩ 2).2).getConn 2).sock.reads
      = [.data (beWrite8 1), .data [42]] := by
  decide

/-- Claim C4 as amended: a readable dispatch repeatedly reads, producing in
order every complete frame available, until `readable` yields no frame —
which happens on would-block (first conjunct: a script of complete frames
followed by nothing is drained in full) or on a zero-length frame (second
conjunct: the drain stops there, leaving any later pending data unread in
the socket for this dispatch). -/
theorem C4_drain_stops_at_no_frame (s : Server) (t : Nat)
    (frames : List (List Nat)) (more : List ReadRes)
    (hts : ∀ p ∈ s.conns, s.token ≠ p.1)
    (hlive : (s.conns.find? (·.1 == t)).isSome)
    (hrc : (s.getConn t).read_continuation = none)
    (hwf : ∀ f ∈ frames, f ≠ [] ∧ f.length < 2 ^ 64) :
    ((s.getConn t).sock.reads = mkScript frames →
      (Server.readable s t).1 = .ok frames
      ∧ (((Server.readable s t).2).getConn t).sock.reads = [])
    ∧ ((s.getConn t).sock.reads = mkScript frames ++ .data (beWrite8 0) :: more →
      (Server.readable s t).1 = .ok frames
      ∧ (((Server.readable s t).2).getConn t).sock.reads = more) := by
  constructor
  · intro hreads
    have hstop : ∀ c : Connection, c.read_continuation = none →
        c.sock.reads = ([] : List ReadRes) →
        Connection.readable c
          = (.ok none, { c with sock := { c.sock with reads := ([] : List ReadRes).drop 0 } }) := by
      intro c hc hr
      obtain ⟨⟨rds, ws, snt⟩, tok, intr, q, rc, wc, rst⟩ := c
      simp only at hc hr
      subst hc
      subst hr
      unfold Connection.readable Connection.read_message_length Sock.read
      simp
    have h := Server.readableLoopF_drain frames [] 0 hstop
      ((s.getConn t).sock.reads.length + 1) s t
      (by rw [hreads, mkScript_length]; omega)
      hwf hts hlive hrc (by rw [hreads, List.append_nil])
    exact ⟨h.1, h.2⟩
  · intro hreads
    have hstop : ∀ c : Connection, c.read_continuation = none →
        c.sock.reads = .data (beWrite8 0) :: more →
        Connection.readable c
          = (.ok none,
              { c with sock := { c.sock with reads := (ReadRes.data (beWrite8 0) :: more).drop 1 } }) := by
      intro c hc hr
      obtain ⟨⟨rds, ws, snt⟩, tok, intr, q, rc, wc, rst⟩ := c
      simp only at hc hr
      subst hc
      subst hr
      unfold Connection.readable Connection.read_message_length Sock.read
      simp [beWrite8_take8, beWrite8_length, beRead_beWrite8 0 (by norm_num)]
    have h := Server.readableLoopF_drain frames (.data (beWrite8 0) :: more) 1 hstop
      ((s.getConn t).sock.reads.length + 1) s t
      (by rw [hreads]; simp [mkScript_length]; omega)
      hwf hts hlive hrc hreads
    exact ⟨h.1, h.2⟩

/-- Witness for C4: a connection delivering exactly one complete frame
`[42]` is drained in full; with a zero-length frame inserted after it, the
dispatch still yields `[[42]]` but leaves the following pending header
unread. -/
theorem C4_drain_stops_at_no_frame_witness :
    (Server.readable
        ⟨1, [(2, ⟨⟨mkScript [[42]], [], []⟩, 2, ⟨true, false, true⟩, [], none, false, false⟩)],
         [], false⟩ 2).1 = .ok [[42]]
    ∧ (Server.readable
        ⟨1, [(2, ⟨⟨mkScript [[42]] ++ ReadRes.data (beWrite8 0) :: [ReadRes.data (beWrite8 7)], [], []⟩, 2,
              ⟨true, false, true⟩, [], none, false, false⟩)], [], false⟩ 2).1 = .ok [[42]]
    ∧ (((Server.readable
        ⟨1, [(2, ⟨⟨mkScript [[42]] ++ ReadRes.data (beWrite8 0) :: [ReadRes.data (beWrite8 7)], [], []⟩, 2,
              ⟨true, false, true⟩, [], none, false, false⟩)], [], false⟩ 2).2).getConn 2).sock.reads
      = [ReadRes.data (beWrite8 7)] := by
  have h₁ := (C4_drain_stops_at_no_frame
    ⟨1, [(2, ⟨⟨mkScript [[42]], [], []⟩, 2, ⟨true, false, true⟩, [], none, false, false⟩)],
     [], false⟩ 2 [[42]] []
    (by decide) (by decide) (by decide) (by decide)).1 rfl
  have h₂ := (C4_drain_stops_at_no_frame
    ⟨1, [(2, ⟨⟨mkScript [[42]] ++ ReadRes.data (beWrite8 0) :: [ReadRes.data (beWrite8 7)], [], []⟩, 2,
          ⟨true, false, true⟩, [], none, false, false⟩)], [], false⟩ 2 [[42]]
    [ReadRes.data (beWrite8 7)]
    (by decide) (by decide) (by decide) (by decide)).2 rfl
  exact ⟨h₁.1, h₂.1, h₂.2⟩

theorem Rc.Heap.get_middle (l₁ l₂ : List (List Nat)) (bs : List Nat) :
    (⟨l₁ ++ bs :: l₂⟩ : Rc.Heap).get l₁.length = bs := by
  induction l₁ with
  | nil => rfl
  | cons x l₁ ih => simpa [Rc.Heap.get] using ih

theorem Rc.write_message_length_conn_fields (h : Rc.Heap) (c : Rc.Conn) (buf : Nat) :
    ((Rc.write_message_length h c buf).2).token = c.token
    ∧ ((Rc.write_message_length h c buf).2).send_queue = c.send_queue
    ∧ ((Rc.write_message_length h c buf).2).write_continuation = c.write_continuation := by
  unfold Rc.write_message_length
  split
  · simp
  · split
    case h_1 n s heq => split <;> simp_all
    case h_2 s heq => simp_all
    case h_3 s heq => simp_all

theorem Rc.write_message_heap_token (h : Rc.Heap) (c : Rc.Conn) (buf : Nat) :
    (∃ ext, ((Rc.write_message h c buf).2.2).bufs = h.bufs ++ ext)
    ∧ ((Rc.write_message h c buf).2.1).token = c.token := by
  have hf := Rc.write_message_length_conn_fields h c buf
  unfold Rc.write_message
  split
  case h_1 c₁ hw =>
    rw [hw] at hf
    exact ⟨⟨[], by simp⟩, hf.1⟩
  case h_2 e c₁ hw =>
    rw [hw] at hf
    exact ⟨⟨[], by simp⟩, hf.1⟩
  case h_3 val c₁ hw =>
    rw [hw] at hf
    dsimp only [Rc.Heap.alloc]
    split
    case h_1 n s heq =>
      split
      · exact ⟨⟨[(h.get buf).drop n], rfl⟩, hf.1⟩
      · exact ⟨⟨[], by simp⟩, hf.1⟩
    case h_2 s heq => exact ⟨⟨[], by simp⟩, hf.1⟩
    case h_3 s heq => exact ⟨⟨[], by simp⟩, hf.1⟩

theorem Rc.send_message_heap_token (h : Rc.Heap) (c : Rc.Conn) (id : Nat) :
    (∃ ext, ((Rc.send_message h c id).2.2).bufs = h.bufs ++ ext)
    ∧ ((Rc.send_message h c id).2.1).token = c.token := by
  unfold Rc.send_message
  by_cases hq : c.send_queue.isEmpty
  · rw [if_pos hq]
    have hw := Rc.write_message_heap_token h c id
    split
    next r c₁ h₁ heq =>
      rw [heq] at hw
      cases r with
      | error e => exact hw
      | ok u =>
        cases u
        by_cases hcond : (!c₁.send_queue.isEmpty && !c₁.interest.wr) = true
        · rw [if_pos hcond]
          exact ⟨hw.1, hw.2⟩
        · rw [if_neg hcond]
          exact hw
  · rw [if_neg hq]
    dsimp only
    split
    · exact ⟨⟨[], by simp⟩, rfl⟩
    · exact ⟨⟨[], by simp⟩, rfl⟩

theorem Rc.send_message_queue_append (h : Rc.Heap) (c : Rc.Conn) (id : Nat)
    (hne : ¬ c.send_queue.isEmpty = true) :
    (Rc.send_message h c id).1 = .ok ()
    ∧ ((Rc.send_message h c id).2.1).send_queue = c.send_queue ++ [id]
    ∧ (Rc.send_message h c id).2.2 = h := by
  unfold Rc.send_message
  rw [if_neg hne]
  refine ⟨?_, ?_, ?_⟩ <;> (dsimp only; split <;> simp)

/-- Claim C5 counterexample: fanning the frame `[7]` out to two connections
allocates a fresh buffer per connection (`ByteBuf::from_slice` copies the
message bytes): connection 2's queue holds handle 0 and connection 3's
queue holds handle 1 — two distinct allocations with equal contents — not
one shared underlying buffer. -/
theorem C5_per_connection_copy_cex :
    Rc.fanoutLoop [7] ⟨[]⟩
        [⟨⟨[], [.wouldBlock], []⟩, 2, ⟨true, false, true⟩, [], false⟩,
         ⟨⟨[], [.wouldBlock], []⟩, 3, ⟨true, false, true⟩, [], false⟩]
      = (⟨[[7], [7]]⟩,
         [⟨⟨[], [], []⟩, 2, ⟨true, true, true⟩, [0], false⟩,
          ⟨⟨[], [], []⟩, 3, ⟨true, true, true⟩, [1], false⟩], [])
    ∧ (0 : Nat) ≠ 1 := by
  decide

/-- Claim C5 as amended: during fan-out every connection receives its own
freshly allocated copy of the payload rather than a shared reference: the
heap only ever grows (pre-existing buffers are never mutated), at least one
new buffer is allocated per connection in the table, and each connection
with a non-empty queue gets exactly one new handle appended whose target is
a fresh allocation (index at or beyond the old heap end) holding bytes
equal to the broadcast message. -/
theorem C5_fanout_per_connection_copies (m : List Nat) (h : Rc.Heap)
    (conns : List Rc.Conn) :
    (∃ ext, ((Rc.fanoutLoop m h conns).1).bufs = h.bufs ++ ext)
    ∧ h.bufs.length + conns.length ≤ ((Rc.fanoutLoop m h conns).1).bufs.length
    ∧ List.Forall₂ (fun c c' : Rc.Conn =>
        c'.token = c.token ∧
        (¬ c.send_queue.isEmpty = true →
          ∃ id, h.bufs.length ≤ id
            ∧ ((Rc.fanoutLoop m h conns).1).get id = m
            ∧ c'.send_queue = c.send_queue ++ [id]))
      conns ((Rc.fanoutLoop m h conns).2.1) := by
  induction conns generalizing h with
  | nil =>
    refine ⟨⟨[], by simp [Rc.fanoutLoop]⟩, by simp [Rc.fanoutLoop], ?_⟩
    simp only [Rc.fanoutLoop]
    exact List.Forall₂.nil
  | cons c cs ih =>
    unfold Rc.fanoutLoop
    dsimp only [Rc.Heap.alloc]
    split
    all_goals
      obtain ⟨⟨ext₁, hext₁⟩, htok⟩ :=
        Rc.send_message_heap_token ⟨h.bufs ++ [m]⟩ c h.bufs.length
    all_goals
      obtain ⟨⟨ext₂, hext₂⟩, hlen₂, hfa⟩ :=
        ih (Rc.send_message ⟨h.bufs ++ [m]⟩ c h.bufs.length).2.2
    all_goals
      have e₁ : (Rc.send_message ⟨h.bufs ++ [m]⟩ c h.bufs.length).2.2.bufs.length
          = h.bufs.length + 1 + ext₁.length := by
        rw [hext₁]
        simp [List.length_append]
        omega
    all_goals
      have hh₃ : (Rc.fanoutLoop m
            (Rc.send_message ⟨h.bufs ++ [m]⟩ c h.bufs.length).2.2 cs).1.bufs
          = h.bufs ++ m :: (ext₁ ++ ext₂) := by
        rw [hext₂, hext₁]
        simp
    all_goals
      have hget : (Rc.fanoutLoop m
            (Rc.send_message ⟨h.bufs ++ [m]⟩ c h.bufs.length).2.2 cs).1.get h.bufs.length
          = m := by
        unfold Rc.Heap.get
        rw [hh₃]
        exact Rc.Heap.get_middle h.bufs (ext₁ ++ ext₂) m
    all_goals
      have hhead : ((Rc.send_message ⟨h.bufs ++ [m]⟩ c h.bufs.length).2.1).token = c.token ∧
          (¬ c.send_queue.isEmpty = true →
            ∃ id, h.bufs.length ≤ id
              ∧ (Rc.fanoutLoop m
                  (Rc.send_message ⟨h.bufs ++ [m]⟩ c h.bufs.length).2.2 cs).1.get id = m
              ∧ ((Rc.send_message ⟨h.bufs ++ [m]⟩ c h.bufs.length).2.1).send_queue
                  = c.send_queue ++ [id]) := by
        refine ⟨htok, fun hne => ?_⟩
        have hnem := Rc.send_message_queue_append ⟨h.bufs ++ [m]⟩ c h.bufs.length hne
        exact ⟨h.bufs.length, Nat.le_refl _, hget, hnem.2.1⟩
    all_goals
      have htail : List.Forall₂ (fun a b : Rc.Conn =>
          b.token = a.token ∧
          (¬ a.send_queue.isEmpty = true →
            ∃ id, h.bufs.length ≤ id
              ∧ (Rc.fanoutLoop m
                  (Rc.send_message ⟨h.bufs ++ [m]⟩ c h.bufs.length).2.2 cs).1.get id = m
              ∧ b.send_queue = a.send_queue ++ [id])) cs
          (Rc.fanoutLoop m
            (Rc.send_message ⟨h.bufs ++ [m]⟩ c h.bufs.length).2.2 cs).2.1 := by
        refine List.Forall₂.imp ?_ hfa
        intro a b hab
        refine ⟨hab.1, fun hne => ?_⟩
        obtain ⟨id, hle, hg, hq⟩ := hab.2 hne
        exact ⟨id, by omega, hg, hq⟩
    all_goals
      have hlen : h.bufs.length + (c :: cs).length
          ≤ (Rc.fanoutLoop m
              (Rc.send_message ⟨h.bufs ++ [m]⟩ c h.bufs.length).2.2 cs).1.bufs.length := by
        simp only [List.length_cons]
        omega
    all_goals
      exact ⟨⟨m :: (ext₁ ++ ext₂), hh₃⟩, hlen, List.Forall₂.cons hhead htail⟩
